import Mathlib

/-!
# DigitalOceanSnapshotter: retention and error propagation of `main`

A shallow embedding of `cmd/DigitalOceanSnapshotter/main.go`.

The program is a straight-line script around four backend calls, a chat
notifier and a shell command.  Everything outside `main.go` is an input of
the model:

* the process environment is a function `Env`;
* the backend client, the clock, `time.Parse` and `exec.Command(..).Run()`
  are the fields of a `World` over an arbitrary state type `σ`;
* the Slack client is a `Notifier` over its own state type `ν`.

A run yields the list of calls that were issued together with their
results (`Event`), the final states, and how the process ended (`Exit`).

Go's `int` is taken to be 64 bits wide.  `initLogging` only configures the
logger and is left out; a log line is an `Event.log` with its level.
-/

namespace Snapshotter

/-! ## Library functions used by `main.go` -/

/-- The layout constant `createdAtFormat` of `main.go`. -/
def createdAtFormat : String := "2006-01-02T15:04:05Z"

/-- ASCII decimal digit test. -/
def isDigit (c : Char) : Bool := decide (48 ≤ c.toNat) && decide (c.toNat ≤ 57)

/-- Value of an ASCII decimal digit. -/
def digitVal (c : Char) : Nat := c.toNat - 48

/-- Reads a run of decimal digits, most significant first, onto `acc`;
`none` when a character is not a digit. -/
def readDigits : Nat → List Char → Option Nat
  | acc, [] => some acc
  | acc, c :: cs => if isDigit c then readDigits (acc * 10 + digitVal c) cs else none

/-- Go's `strconv.Atoi` for a 64-bit `int`: an optional sign, then one or
more decimal digits, and the value has to fit in `int64`. -/
def strconvAtoi (s : String) : Option Int :=
  let body (neg : Bool) (ds : List Char) : Option Int :=
    match ds with
    | [] => none
    | _ :: _ =>
      match readDigits 0 ds with
      | none => none
      | some v =>
        if neg then (if v ≤ 2 ^ 63 then some (-(v : Int)) else none)
        else (if v < 2 ^ 63 then some (v : Int) else none)
  match s.data with
  | [] => none
  | c :: cs =>
    if c = '-' then body true cs
    else if c = '+' then body false cs
    else body false (c :: cs)

/-- Splits a character list at every occurrence of `sep`; always returns at
least one piece. -/
def splitChars (sep : Char) : List Char → List (List Char)
  | [] => [[]]
  | c :: cs =>
    if c = sep then [] :: splitChars sep cs
    else
      match splitChars sep cs with
      | [] => [[c]]
      | p :: ps => (c :: p) :: ps

/-- Go's `strings.Split(s, ",")`. -/
def stringsSplitComma (s : String) : List String :=
  (splitChars ',' s.data).map String.mk

/-- Two's-complement wrap-around of a 64-bit `int`. -/
def wrapInt64 (x : Int) : Int := (x + 2 ^ 63) % 2 ^ 64 - 2 ^ 63

/-! ## Data model -/

/-- The fields of `godo.Volume` that `main` reads. -/
structure Volume where
  ID : String
  Name : String
  deriving DecidableEq, Repr

/-- The fields of `godo.Snapshot` that `main` reads, and its name. -/
structure Snapshot where
  ID : String
  Name : String
  Created : String
  deriving DecidableEq, Repr

/-- The backend handle: built in `main` from the token. -/
structure DigitalOceanContext where
  token : String
  deriving DecidableEq, Repr

/-- The notifier handle: built in `main` from token and channel. -/
structure SlackContext where
  token : String
  channelID : String
  deriving DecidableEq, Repr

/-- The struct `snapshotterContext`; a nil `SlackContext` is `none`. -/
structure snapshotterContext where
  DoContext : DigitalOceanContext
  Slack : Option SlackContext
  deriving DecidableEq, Repr

/-- Severities: the logrus levels that `main.go` uses. -/
inductive Level where
  | fatal
  | error
  | info
  deriving DecidableEq, Repr

/-- The process environment: `os.LookupEnv`. -/
abbrev Env := String → Option String

/-- Go's `os.Getenv`: the empty string for an unset variable. -/
def getenv (env : Env) (key : String) : String := (env key).getD ""

/-- An environment given by a list of bindings. -/
def envOf (bindings : List (String × String)) : Env := fun key => bindings.lookup key

/-- One call made by the process, with the answer it got. -/
inductive Event where
  | getVolume (volumeID : String) (result : Except String Volume)
  | createSnapshot (volumeID name : String) (result : Except String Snapshot)
  | listSnapshots (volumeID : String) (perPage : Nat) (result : Except String (List Snapshot))
  | deleteSnapshot (snapshotID : String) (err : Option String)
  | sendEvent (message : String) (level : Level) (err : Option String)
  | runCommand (command : String) (err : Option String)
  | log (level : Level) (message : String)

/-- How the process ends: `main` returns (status 0), `log.Fatal` calls
`os.Exit(1)`, a runtime panic ends the process with status 2. -/
inductive Exit where
  | returned
  | fatal
  | panicked
  deriving DecidableEq, Repr

/-- The exit status of the process. -/
def Exit.status : Exit → Nat
  | .returned => 0
  | .fatal => 1
  | .panicked => 2

/-- The collaborators other than the notifier, over a state `σ`:
`time.Parse`, the formatted clock `time.Now().Format(layout)`, the four
methods of `DigitalOceanContext`, and `exec.Command("bash", "-c", cmd).Run()`.
A parsed time is an instant, ordered by `Before` as the integers are by `<`. -/
structure World (σ : Type) where
  timeParse : String → String → Except String Int
  timeNowFormat : String → σ → String
  getVolume : DigitalOceanContext → String → σ → Except String Volume × σ
  createSnapshot : DigitalOceanContext → String → String → σ → Except String Snapshot × σ
  listSnapshots : DigitalOceanContext → String → Nat → σ → Except String (List Snapshot) × σ
  deleteSnapshot : DigitalOceanContext → String → σ → Option String × σ
  execRun : String → σ → Option String × σ

/-- The method `SlackContext.SendEvent`, over a state `ν`. -/
structure Notifier (ν : Type) where
  sendEvent : SlackContext → String → Level → ν → Option String × ν

/-- What a piece of the program did: the calls in order, the states it
left, and either a value to go on with or the end of the process. -/
structure Run (σ ν α : Type) where
  trace : List Event
  world : σ
  slack : ν
  res : Except Exit α

/-- A piece of the program: from the two states to a `Run`. -/
def Prog (σ ν α : Type) : Type := σ → ν → Run σ ν α

/-- Continue with a value, doing nothing. -/
def Prog.pure {σ ν α : Type} (a : α) : Prog σ ν α :=
  fun s n => { trace := [], world := s, slack := n, res := .ok a }

/-- Sequencing: the second piece runs only if the first did not end the
process. -/
def Prog.bind {σ ν α β : Type} (m : Prog σ ν α) (f : α → Prog σ ν β) : Prog σ ν β :=
  fun s n =>
    let r := m s n
    match r.res with
    | .error e => { trace := r.trace, world := r.world, slack := r.slack, res := .error e }
    | .ok a =>
      let r2 := f a r.world r.slack
      { trace := r.trace ++ r2.trace, world := r2.world, slack := r2.slack, res := r2.res }

instance {σ ν : Type} : Monad (Prog σ ν) where
  pure := Prog.pure
  bind := Prog.bind

/-- End the process. -/
def exitWith {σ ν α : Type} (e : Exit) : Prog σ ν α :=
  fun s n => { trace := [], world := s, slack := n, res := .error e }

/-- A log line at a level that lets the process go on. -/
def logAt {σ ν : Type} (level : Level) (message : String) : Prog σ ν Unit :=
  fun s n => { trace := [Event.log level message], world := s, slack := n, res := .ok () }

/-- Logrus `log.Fatal`: the line is logged and the process exits with 1. -/
def logFatal {σ ν α : Type} (message : String) : Prog σ ν α :=
  fun s n => { trace := [Event.log Level.fatal message], world := s, slack := n,
               res := .error Exit.fatal }

/-- Call `GetVolume`. -/
def callGetVolume {σ ν : Type} (W : World σ) (c : DigitalOceanContext) (volumeID : String) :
    Prog σ ν (Except String Volume) :=
  fun s n =>
    let r := W.getVolume c volumeID s
    { trace := [Event.getVolume volumeID r.1], world := r.2, slack := n, res := .ok r.1 }

/-- Call `CreateSnapshot` with the name taken from the clock. -/
def callCreateSnapshot {σ ν : Type} (W : World σ) (c : DigitalOceanContext) (volumeID : String)
    (layout : String) : Prog σ ν (Except String Snapshot) :=
  fun s n =>
    let name := W.timeNowFormat layout s
    let r := W.createSnapshot c volumeID name s
    { trace := [Event.createSnapshot volumeID name r.1], world := r.2, slack := n, res := .ok r.1 }

/-- Call `ListSnapshots`. -/
def callListSnapshots {σ ν : Type} (W : World σ) (c : DigitalOceanContext) (volumeID : String)
    (perPage : Nat) : Prog σ ν (Except String (List Snapshot)) :=
  fun s n =>
    let r := W.listSnapshots c volumeID perPage s
    { trace := [Event.listSnapshots volumeID perPage r.1], world := r.2, slack := n,
      res := .ok r.1 }

/-- Call `DeleteSnapshot`. -/
def callDeleteSnapshot {σ ν : Type} (W : World σ) (c : DigitalOceanContext) (snapshotID : String) :
    Prog σ ν (Option String) :=
  fun s n =>
    let r := W.deleteSnapshot c snapshotID s
    { trace := [Event.deleteSnapshot snapshotID r.1], world := r.2, slack := n, res := .ok r.1 }

/-- Call `SendEvent`. -/
def callSendEvent {σ ν : Type} (N : Notifier ν) (c : SlackContext) (message : String)
    (level : Level) : Prog σ ν (Option String) :=
  fun s n =>
    let r := N.sendEvent c message level n
    { trace := [Event.sendEvent message level r.1], world := s, slack := r.2, res := .ok r.1 }

/-- Run `bash -c command`. -/
def callExecRun {σ ν : Type} (W : World σ) (command : String) : Prog σ ν (Option String) :=
  fun s n =>
    let r := W.execRun command s
    { trace := [Event.runCommand command r.1], world := r.2, slack := n, res := .ok r.1 }

/-! ## The sort of `main`: `sort.SliceStable` with the timestamp comparator -/

/-- The comparator closure of lines 115-127, on two records: both
timestamps are parsed with `createdAtFormat`, the first one first, and a
parse error ends the process through `handleError(ctx, err, true)`; here the
error is returned and `pruneSnapshots` passes it to `handleError`. -/
def lessCreated {σ : Type} (W : World σ) (first second : Snapshot) : Except String Bool :=
  match W.timeParse createdAtFormat first.Created with
  | .error err => .error err
  | .ok firstTime =>
    match W.timeParse createdAtFormat second.Created with
    | .error err => .error err
    | .ok secondTime => .ok (decide (firstTime < secondTime))

/-- The inner loop of the library's `insertionSort`:
`for j := i; j > a && less(j, j-1); j-- { swap(j, j-1) }`.
The sorted part before position `i` is passed last element first, and the
result is again last element first. -/
def insertBack {α ε : Type} (less : α → α → Except ε Bool) (x : α) : List α → Except ε (List α)
  | [] => .ok [x]
  | y :: ys =>
    match less x y with
    | .error err => .error err
    | .ok false => .ok (x :: y :: ys)
    | .ok true =>
      match insertBack less x ys with
      | .error err => .error err
      | .ok rest => .ok (y :: rest)

/-- The outer loop of `insertionSort`: `done` is the sorted part, last
element first, and the second list is what is still to be inserted. -/
def sortLoop {α ε : Type} (less : α → α → Except ε Bool) : List α → List α → Except ε (List α)
  | done, [] => .ok done.reverse
  | done, x :: xs =>
    match insertBack less x done with
    | .error err => .error err
    | .ok done2 => sortLoop less done2 xs

/-- Go's `sort.SliceStable(data, less)` with a comparator that can end the
process.  The library sorts blocks of 20 elements by `insertionSort` and
merges the blocks with `symMerge`; the model is `insertionSort` over the
whole slice.  A stable sort has one possible result
(`stable_sorted_unique`), and a comparison sort of two or more elements
compares every element at least once, so the result, and whether the
comparator fails, are those of the library for every length; for more than
20 elements the record named in the fatal message can differ. -/
def sortSliceStable {α ε : Type} (less : α → α → Except ε Bool) (data : List α) :
    Except ε (List α) :=
  sortLoop less [] data

/-! ## `main.go` -/

/-- The function `handleError` (lines 159-174). -/
def handleError {σ ν : Type} (N : Notifier ν) (ctx : snapshotterContext) (err : String)
    (fatal : Bool) : Prog σ ν Unit := do
  let errString := err
  (match ctx.Slack with
    | some slack => do
      let err ← callSendEvent N slack errString Level.error
      (match err with
        | some sendErr =>
          logAt Level.error ("Error while trying to send error to Slack: " ++ sendErr)
        | none => pure ())
    | none => pure ())
  (if fatal then logFatal errString else pure ())
  logAt Level.error errString

/-- The idiom `if err != nil { handleError(ctx, err, true) }` after a call
that returns a value: `handleError` with `fatal` set ends the process, so
the code behind it runs only with the value. -/
def orFatal {σ ν α : Type} (N : Notifier ν) (ctx : snapshotterContext) (r : Except String α) :
    Prog σ ν α :=
  match r with
  | .error err => do
    handleError N ctx err true
    exitWith Exit.fatal
  | .ok a => pure a

/-- The deletion loop of `main` (lines 131-140),
`for i := 0; i < snapshotsToDelete; i++`, entered at index `i` with
`remaining` iterations to go.  Reading `snapshots[i]` past the end is a
runtime panic; a failed deletion is reported non-fatally and `main`
returns. -/
def deleteLoop {σ ν : Type} (W : World σ) (N : Notifier ν) (ctx : snapshotterContext)
    (snapshots : List Snapshot) : Nat → Nat → Prog σ ν Unit
  | 0, _ => pure ()
  | remaining + 1, i =>
    match snapshots[i]? with
    | none => exitWith Exit.panicked
    | some snapshot => do
      let snapshotToDeleteID := snapshot.ID
      let err ← callDeleteSnapshot W ctx.DoContext snapshotToDeleteID
      match err with
      | some e => do
        handleError N ctx e false
        exitWith Exit.returned
      | none => do
        logAt Level.info ("Deleted Snapshot with Id " ++ snapshotToDeleteID)
        deleteLoop W N ctx snapshots remaining (i + 1)

/-- The pruning step of `main` (lines 112-141) on the listed snapshots.
The comparator of the sort ends the process on a timestamp that does not
parse; the sort then has no result. -/
def pruneSnapshots {σ ν : Type} (W : World σ) (N : Notifier ν) (ctx : snapshotterContext)
    (snapshotCount : Int) (snapshots : List Snapshot) : Prog σ ν Unit :=
  let snapshotLength : Int := snapshots.length
  if snapshotLength > snapshotCount then do
    let sorted ← orFatal N ctx (sortSliceStable (lessCreated W) snapshots)
    let snapshotsToDelete := wrapInt64 (snapshotLength - snapshotCount)
    deleteLoop W N ctx sorted snapshotsToDelete.toNat 0
  else
    pure ()

/-- The body of the loop over the volumes (lines 90-141). -/
def processVolume {σ ν : Type} (W : World σ) (N : Notifier ν) (ctx : snapshotterContext)
    (snapshotCount : Int) (volumeID : String) : Prog σ ν Unit := do
  let volume ← orFatal N ctx (← callGetVolume W ctx.DoContext volumeID)
  let snapshot ← orFatal N ctx
    (← callCreateSnapshot W ctx.DoContext volume.ID "2006-01-02T15:04:05")
  logAt Level.info ("Created Snapshot with Id " ++ snapshot.ID ++ " from volume " ++ volume.Name)
  let snapshots ← orFatal N ctx (← callListSnapshots W ctx.DoContext volume.ID 100)
  pruneSnapshots W N ctx snapshotCount snapshots

/-- The loop `for _, volumeID := range volumeIDs` (lines 89-142). -/
def forVolumes {σ ν : Type} (W : World σ) (N : Notifier ν) (ctx : snapshotterContext)
    (snapshotCount : Int) : List String → Prog σ ν Unit
  | [] => pure ()
  | volumeID :: rest => do
    processVolume W N ctx snapshotCount volumeID
    forVolumes W N ctx snapshotCount rest

/-- The end of `main` (lines 144-156): the success message and the
post-success command. -/
def finish {σ ν : Type} (W : World σ) (N : Notifier ν) (env : Env) (ctx : snapshotterContext)
    (volumeCount : Nat) : Prog σ ν Unit := do
  (match ctx.Slack with
    | some slack => do
      let err ← callSendEvent N slack
        ("Successfully created Backup for " ++ toString volumeCount ++ " Volumes") Level.info
      (match err with
        | some e => handleError N ctx e false
        | none => pure ())
    | none => pure ())
  (match env "SUCCESS_COMMAND" with
    | some successEnv => do
      let err ← callExecRun W successEnv
      (match err with
        | some e => do
          handleError N ctx e true
          exitWith Exit.fatal
        | none => pure ())
    | none => pure ())

/-- The `os.LookupEnv` idiom of lines 38-54: the value of a variable, or
`log.Fatal` with the given message when it is not set. -/
def lookupOrFatal {σ ν : Type} (env : Env) (key message : String) : Prog σ ν String :=
  match env key with
  | none => logFatal message
  | some v => pure v

/-- The function `main` (lines 35-157). -/
def main {σ ν : Type} (env : Env) (W : World σ) (N : Notifier ν) : Prog σ ν Unit := do
  let DOToken ← lookupOrFatal env "DO_TOKEN" "Missing enviroment variable \"DO_TOKEN\""
  let volumesEnv ← lookupOrFatal env "DO_VOLUMES" "Missing enviroment variable \"DO_VOLUMES\""
  let snapshotCountEnv ← lookupOrFatal env "DO_SNAPSHOT_COUNT"
    "Missing enviroment variable \"DO_SNAPSHOT_COUNT\""
  let snapshotCount ←
    (match strconvAtoi snapshotCountEnv with
      | none => logFatal "Enviroment variable \"DO_SNAPSHOT_COUNT\" is not an integer"
      | some k => pure k)
  let slackEnv := getenv env "SLACK_TOKEN"
  let slackContext ←
    (if slackEnv ≠ "" then do
      let channelID ← lookupOrFatal env "SLACK_CHANNEL_ID"
        "Missing enviroment variable \"SLACK_CHANNEL_ID\""
      pure (some { token := slackEnv, channelID := channelID : SlackContext })
    else
      pure none)
  let ctx : snapshotterContext :=
    { DoContext := { token := DOToken }, Slack := slackContext }
  let volumeIDs := stringsSplitComma volumesEnv
  forVolumes W N ctx snapshotCount volumeIDs
  finish W N env ctx volumeIDs.length

/-- The exit status of a run of `main`. -/
def exitStatus {σ ν : Type} (r : Run σ ν Unit) : Nat :=
  match r.res with
  | .ok _ => 0
  | .error e => e.status

/-! ## A model of `time.Parse` for `createdAtFormat`, and an in-memory world

The theorems hold for every `World`.  The definitions below give one, to
evaluate the program on concrete inputs. -/

/-- Go's `getnum`: two digits, or a single one when `fixed` is off. -/
def getnum (fixed : Bool) : List Char → Option (Nat × List Char)
  | [] => none
  | [c] => if isDigit c && !fixed then some (digitVal c, []) else none
  | c :: d :: rest =>
    if isDigit c then
      if isDigit d then some (digitVal c * 10 + digitVal d, rest)
      else if fixed then none else some (digitVal c, d :: rest)
    else none

/-- Go's `skip` for a one-character literal of the layout. -/
def skipLit (lit : Char) : List Char → Option (List Char)
  | [] => none
  | c :: rest => if c = lit then some rest else none

/-- The fractional second that `time.Parse` accepts after the seconds field
although the layout has none: `.` or `,` and digits, of which nine count.
Returns the nanoseconds and the rest of the input. -/
def fracSeconds : List Char → Nat × List Char
  | c :: d :: rest =>
    if (c = '.' ∨ c = ',') ∧ isDigit d = true then
      let digits := (d :: rest).takeWhile isDigit
      let used := digits.take 9
      ((used.foldl (fun acc x => acc * 10 + digitVal x) 0) * 10 ^ (9 - used.length),
        (d :: rest).dropWhile isDigit)
    else (0, c :: d :: rest)
  | rest => (0, rest)

/-- Gregorian leap year. -/
def isLeap (year : Nat) : Bool :=
  year % 4 == 0 && (year % 100 != 0 || year % 400 == 0)

/-- Go's `daysIn`. -/
def daysIn (month year : Nat) : Nat :=
  if month = 2 then (if isLeap year then 29 else 28)
  else if month = 4 ∨ month = 6 ∨ month = 9 ∨ month = 11 then 30 else 31

/-- Days from 1 January of year 0 to the first day of `month` of `year`. -/
def daysBefore (year month : Nat) : Nat :=
  let leaps := if year = 0 then 0 else (year - 1) / 4 - (year - 1) / 100 + (year - 1) / 400 + 1
  year * 365 + leaps + ((List.range month).drop 1).foldl (fun acc m => acc + daysIn m year) 0

/-- Go's `time.Parse("2006-01-02T15:04:05Z", value)`: the instant in
nanoseconds since the start of year 0, in UTC (the `Z` of this layout is a
literal). -/
def parseCreatedAt (value : String) : Except String Int :=
  let bad : Except String Int := .error ("parsing time \"" ++ value ++ "\"")
  match value.data with
  | y1 :: y2 :: y3 :: y4 :: rest =>
    if isDigit y1 && isDigit y2 && isDigit y3 && isDigit y4 then
      let year := ((digitVal y1 * 10 + digitVal y2) * 10 + digitVal y3) * 10 + digitVal y4
      match (skipLit '-' rest).bind (getnum true) with
      | none => bad
      | some (month, rest) =>
        if month = 0 ∨ 12 < month then bad else
        match (skipLit '-' rest).bind (getnum true) with
        | none => bad
        | some (day, rest) =>
          match (skipLit 'T' rest).bind (getnum false) with
          | none => bad
          | some (hour, rest) =>
            if 24 ≤ hour then bad else
            match (skipLit ':' rest).bind (getnum true) with
            | none => bad
            | some (minute, rest) =>
              if 60 ≤ minute then bad else
              match (skipLit ':' rest).bind (getnum true) with
              | none => bad
              | some (second, rest) =>
                if 60 ≤ second then bad else
                let frac := fracSeconds rest
                match frac.2 with
                | ['Z'] =>
                  if day < 1 ∨ daysIn month year < day then bad
                  else
                    let days := daysBefore year month + (day - 1)
                    .ok (((((days * 24 + hour) * 60 + minute) * 60 + second) * 1000000000
                      + frac.1 : Nat) : Int)
                | _ => bad
    else bad
  | _ => bad

/-- The state of the in-memory backend: the snapshots it holds, the
identifiers whose deletion it refuses, and how many snapshots it created. -/
structure Store where
  snapshots : List Snapshot
  refused : List String
  created : Nat

/-- An in-memory backend with one volume namespace: every volume
identifier resolves, a new snapshot gets the creation time `stamp`, the
listing returns what is held, a deletion succeeds unless the identifier is
refused, and the shell command succeeds. -/
def memWorld (stamp : String) : World Store where
  timeParse := fun layout value =>
    if layout = createdAtFormat then parseCreatedAt value else .error "layout"
  timeNowFormat := fun _ _ => "2024-06-01T12:00:00"
  getVolume := fun _ volumeID st => (.ok { ID := volumeID, Name := "vol-" ++ volumeID }, st)
  createSnapshot := fun _ _ name st =>
    let snap : Snapshot := { ID := "new-" ++ toString st.created, Name := name, Created := stamp }
    (.ok snap, { st with snapshots := st.snapshots ++ [snap], created := st.created + 1 })
  listSnapshots := fun _ _ _ st => (.ok st.snapshots, st)
  deleteSnapshot := fun _ snapshotID st =>
    if snapshotID ∈ st.refused then (some ("cannot delete " ++ snapshotID), st)
    else (none, { st with snapshots := st.snapshots.filter (fun x => x.ID ≠ snapshotID) })
  execRun := fun _ st => (none, st)

/-- A notifier whose every send succeeds. -/
def okNotifier : Notifier Unit where
  sendEvent := fun _ _ _ n => (none, n)

/-- A notifier whose every send fails. -/
def downNotifier : Notifier Unit where
  sendEvent := fun _ _ _ n => (some "slack unreachable", n)

/-! ## Reading a run -/

/-- The parse that the comparator applies to a record. -/
def parseCreated {σ : Type} (W : World σ) (x : Snapshot) : Except String Int :=
  W.timeParse createdAtFormat x.Created

/-- Whether the creation timestamp of a record parses. -/
def parses {σ : Type} (W : World σ) (x : Snapshot) : Bool :=
  match parseCreated W x with
  | .ok _ => true
  | .error _ => false

/-- The parsed creation time of a record (0 for a record that does not
parse; only used for records that do). -/
def createdTime {σ : Type} (W : World σ) (x : Snapshot) : Int :=
  match parseCreated W x with
  | .ok t => t
  | .error _ => 0

/-- A call to the storage backend. -/
def Event.isBackend : Event → Bool
  | .getVolume _ _ => true
  | .createSnapshot _ _ _ => true
  | .listSnapshots _ _ _ => true
  | .deleteSnapshot _ _ => true
  | _ => false

/-- A run of the post-success command. -/
def Event.isCommand : Event → Bool
  | .runCommand _ _ => true
  | _ => false

/-- A call to the notifier. -/
def Event.isNotification : Event → Bool
  | .sendEvent _ _ _ => true
  | _ => false

/-- A delete call that the backend answered with an error. -/
def Event.isFailedDelete : Event → Bool
  | .deleteSnapshot _ (some _) => true
  | _ => false

/-- What the non-fatal error path emits: a notification at error level or
a log line at error level. -/
def Event.isErrorReport : Event → Bool
  | .sendEvent _ Level.error _ => true
  | .log Level.error _ => true
  | _ => false

/-- What the error path emits in general: a notification at error level or
a log line at error or fatal level. -/
def Event.isReport : Event → Bool
  | .sendEvent _ Level.error _ => true
  | .log Level.error _ => true
  | .log Level.fatal _ => true
  | _ => false

/-- An event that does not come from the notifier or from the error-level
log: backend calls, commands, and log lines at info and fatal level. -/
def Event.isCore : Event → Bool
  | .sendEvent _ _ _ => false
  | .log Level.error _ => false
  | _ => true

/-- The identifiers passed to `DeleteSnapshot`, in call order. -/
def deleteCalls (trace : List Event) : List String :=
  trace.filterMap (fun ev =>
    match ev with
    | .deleteSnapshot snapshotID _ => some snapshotID
    | _ => none)

/-- The events of deleting the given records one after the other with
success: the call, then the info line of line 139. -/
def deletedEvents (records : List Snapshot) : List Event :=
  records.flatMap (fun x =>
    [Event.deleteSnapshot x.ID none, Event.log Level.info ("Deleted Snapshot with Id " ++ x.ID)])

/-- What two runs under different notifiers are compared on: the events
that are not notifier traffic, the backend state, and how the run ended. -/
def coreView {σ ν α : Type} (r : Run σ ν α) : List Event × σ × Except Exit α :=
  (r.trace.filter Event.isCore, r.world, r.res)

/-- A trace without a failed delete call. -/
def Clean (trace : List Event) : Prop := ∀ ev ∈ trace, ev.isFailedDelete = false

/-- What `handleError(ctx, err, false)` emits: with a notifier configured,
the send of `err` at error level with the `answer` it got, the log line of
a failed send, and the log line of `err`; without one, the log line of
`err` alone. -/
def errorReport (configured : Bool) (err : String) (answer : Option String) : List Event :=
  if configured then
    Event.sendEvent err Level.error answer ::
      ((match answer with
        | some sendErr =>
          [Event.log Level.error ("Error while trying to send error to Slack: " ++ sendErr)]
        | none => []) ++ [Event.log Level.error err])
  else
    [Event.log Level.error err]

/-- A trace that ends in a failed deletion: after whatever came `before`,
a listing returned `snapshots`, the first `j` records of their sorted
sequence were deleted with success, the delete call for the next record `x`
failed with `e`, and then came `post`, which holds nothing but error-level
reports, among them the log line of `e`: it is the report of `e` by
`handleError`, with the notifier `configured` or not. -/
def StoppedAtDelete {σ : Type} (W : World σ) (configured : Bool) (trace : List Event) : Prop :=
  ∃ (before : List Event) (volumeID : String) (snapshots sorted : List Snapshot) (j : Nat)
    (x : Snapshot) (e : String) (post : List Event),
    sortSliceStable (lessCreated W) snapshots = .ok sorted ∧
    sorted[j]? = some x ∧
    trace = before ++ Event.listSnapshots volumeID 100 (.ok snapshots) ::
      (deletedEvents (sorted.take j) ++ Event.deleteSnapshot x.ID (some e) :: post) ∧
    Clean before ∧
    (∀ ev ∈ post, ev.isErrorReport = true) ∧
    Event.log Level.error e ∈ post ∧
    ∃ answer, post = errorReport configured e answer

/-- The two kinds of run: no delete call failed, or the run stopped at the
failed one and `main` returned. -/
def Good {σ ν α : Type} (W : World σ) (configured : Bool) (r : Run σ ν α) : Prop :=
  Clean r.trace ∨ (StoppedAtDelete W configured r.trace ∧ r.res = .error Exit.returned)

/-! ## The claims that the code does not meet, as stated -/

/-- The deletion order read strictly: the delete calls are the identifiers
of records of the list, one after the other, each created strictly before
the one deleted next. -/
def StrictlyAscendingDeletes {σ : Type} (W : World σ) (snapshots : List Snapshot)
    (trace : List Event) : Prop :=
  ∃ deleted retained : List Snapshot,
    (deleted ++ retained).Perm snapshots ∧
    deleteCalls trace = deleted.map Snapshot.ID ∧
    deleted.Chain' (fun a b => createdTime W a < createdTime W b)

/-- A parse failure read as always fatal: the step ends in a fatal error
and issues no delete call. -/
def ParseFailureIsFatal {σ ν : Type} (r : Run σ ν Unit) : Prop :=
  r.res = .error Exit.fatal ∧ deleteCalls r.trace = []

/-- A deletion failure read as fatal: a run with a failed delete call ends
with a non-zero exit status. -/
def DeletionFailureIsFatal {σ ν : Type} (r : Run σ ν Unit) : Prop :=
  (∃ ev ∈ r.trace, ev.isFailedDelete = true) → exitStatus r ≠ 0

/-- A fatal configuration error before any backend call: the run ends
fatally and its trace has no backend call. -/
def FatalBeforeBackend {σ ν : Type} (r : Run σ ν Unit) : Prop :=
  r.res = .error Exit.fatal ∧ ∀ ev ∈ r.trace, ev.isBackend = false

/-! ## Concrete inputs -/

/-- A record with an identifier and a creation timestamp. -/
def snap (id created : String) : Snapshot := { ID := id, Name := "", Created := created }

/-- A context without notifier. -/
def plainCtx : snapshotterContext := { DoContext := { token := "token" }, Slack := none }

/-- Five records, not in order of creation. -/
def fiveSnapshots : List Snapshot :=
  [snap "s3" "2024-01-03T00:00:00Z", snap "s1" "2024-01-01T00:00:00Z",
   snap "s5" "2024-01-05T00:00:00Z", snap "s2" "2024-01-02T00:00:00Z",
   snap "s4" "2024-01-04T00:00:00Z"]

/-- Two records created in the same second. -/
def tiedSnapshots : List Snapshot :=
  [snap "a" "2024-01-01T00:00:00Z", snap "b" "2024-01-01T00:00:00Z"]

/-- Two records, the second with a timestamp that does not parse. -/
def brokenSnapshots : List Snapshot :=
  [snap "good" "2024-01-01T00:00:00Z", snap "bad" "yesterday"]

/-- An empty backend that refuses nothing. -/
def emptyStore : Store := { snapshots := [], refused := [], created := 0 }

/-- The in-memory world whose new snapshots are stamped 1 June 2024. -/
def juneWorld : World Store := memWorld "2024-06-01T12:00:00Z"

/-- A complete configuration with notifier: one volume, one snapshot to
keep. -/
def fullEnv : Env :=
  envOf [("DO_TOKEN", "token"), ("DO_VOLUMES", "vol1"), ("DO_SNAPSHOT_COUNT", "1"),
    ("SLACK_TOKEN", "xoxb"), ("SLACK_CHANNEL_ID", "C01")]

/-- A backend holding three snapshots that refuses to delete "s2". -/
def refusingStore : Store :=
  { snapshots := [snap "s3" "2024-01-03T00:00:00Z", snap "s1" "2024-01-01T00:00:00Z",
      snap "s2" "2024-01-02T00:00:00Z"],
    refused := ["s2"], created := 0 }

/-- A configuration with the channel identifier set and no notifier
token. -/
def channelOnlyEnv : Env :=
  envOf [("DO_TOKEN", "token"), ("DO_VOLUMES", "vol1"), ("DO_SNAPSHOT_COUNT", "2"),
    ("SLACK_CHANNEL_ID", "C01")]

/-- A configuration with the notifier token set and no channel
identifier. -/
def tokenOnlyEnv : Env :=
  envOf [("DO_TOKEN", "token"), ("DO_VOLUMES", "vol1"), ("DO_SNAPSHOT_COUNT", "2"),
    ("SLACK_TOKEN", "xoxb")]

/-- A configuration without the volume list. -/
def noVolumesEnv : Env :=
  envOf [("DO_TOKEN", "token"), ("DO_SNAPSHOT_COUNT", "2")]

/-- A configuration with a negative retention count. -/
def negativeCountEnv : Env :=
  envOf [("DO_TOKEN", "token"), ("DO_VOLUMES", "vol1"), ("DO_SNAPSHOT_COUNT", "-1")]

/-! # Lemmas -/

/-! ## The sort -/

section SortLemmas

variable {α ε : Type} (less : α → α → Except ε Bool)

theorem insertBack_ne_nil (x : α) :
    ∀ (done r : List α), insertBack less x done = .ok r → r ≠ [] := by
  intro done
  induction done with
  | nil => intro r h; simp [insertBack] at h; subst h; simp
  | cons y ys ih =>
    intro r h
    simp only [insertBack] at h
    split at h
    · cases h
    · cases h; simp
    · split at h
      · cases h
      · cases h; simp

/-- A comparison that succeeded vouches for both of its arguments. -/
theorem insertBack_checks (Q : α → Prop)
    (hQ : ∀ x y b, less x y = .ok b → Q x ∧ Q y) (x y : α) (ys r : List α)
    (h : insertBack less x (y :: ys) = .ok r) : Q x ∧ Q y := by
  simp only [insertBack] at h
  split at h
  · cases h
  · next hb => exact hQ _ _ _ hb
  · next hb => exact hQ _ _ _ hb

theorem sortLoop_checks (Q : α → Prop)
    (hQ : ∀ x y b, less x y = .ok b → Q x ∧ Q y) :
    ∀ (l done r : List α), sortLoop less done l = .ok r → done ≠ [] → ∀ x ∈ l, Q x := by
  intro l
  induction l with
  | nil => intro _ _ _ _ x hx; cases hx
  | cons a l ih =>
    intro done r h hne x hx
    simp only [sortLoop] at h
    split at h
    · cases h
    · next d2 hd =>
      cases done with
      | nil => exact absurd rfl hne
      | cons y ys =>
        rcases List.mem_cons.1 hx with rfl | hx
        · exact (insertBack_checks less Q hQ _ _ _ _ hd).1
        · exact ih d2 r h (insertBack_ne_nil less _ _ _ hd) x hx

/-- If the sort of two or more elements returns, every element went through
a successful comparison. -/
theorem sortSliceStable_checks (Q : α → Prop)
    (hQ : ∀ x y b, less x y = .ok b → Q x ∧ Q y) (a b : α) (l r : List α)
    (h : sortSliceStable less (a :: b :: l) = .ok r) : ∀ x ∈ a :: b :: l, Q x := by
  simp only [sortSliceStable, sortLoop] at h
  have h0 : insertBack less a [] = .ok [a] := rfl
  rw [h0] at h
  simp only [] at h
  split at h
  · cases h
  · next d2 hd =>
    have hab : Q b ∧ Q a := insertBack_checks less Q hQ _ _ _ _ hd
    have hrest := sortLoop_checks less Q hQ l d2 r h (insertBack_ne_nil less _ _ _ hd)
    intro x hx
    rcases List.mem_cons.1 hx with rfl | hx
    · exact hab.2
    · rcases List.mem_cons.1 hx with rfl | hx
      · exact hab.1
      · exact hrest x hx

variable (key : α → Int) (P : α → Prop)

/-- Inserting into a sorted part whose comparisons all succeed. -/
theorem insertBack_spec
    (hless : ∀ x y, P x → P y → less x y = .ok (decide (key x < key y)))
    (x : α) (hx : P x) :
    ∀ (done : List α), (∀ y ∈ done, P y) → done.Pairwise (fun a b => key b ≤ key a) →
      ∃ r, insertBack less x done = .ok r ∧ r.Perm (x :: done) ∧
        r.Pairwise (fun a b => key b ≤ key a) ∧
        ∀ t : Int, r.filter (fun z => decide (key z = t))
          = (x :: done).filter (fun z => decide (key z = t)) := by
  intro done
  induction done with
  | nil =>
    intro _ _
    exact ⟨[x], by simp [insertBack], List.Perm.refl _, List.pairwise_singleton _ _, fun _ => rfl⟩
  | cons y ys ih =>
    intro hP hs
    have hy : P y := hP y (List.mem_cons_self _ _)
    have hys : ∀ z ∈ ys, P z := fun z hz => hP z (List.mem_cons_of_mem _ hz)
    rw [List.pairwise_cons] at hs
    by_cases hlt : key x < key y
    · obtain ⟨r, hr, hperm, hsorted, hstab⟩ := ih hys hs.2
      refine ⟨y :: r, ?_, ?_, ?_, ?_⟩
      · simp [insertBack, hless x y hx hy, hlt, hr]
      · exact (List.Perm.cons y hperm).trans (List.Perm.swap x y ys)
      · rw [List.pairwise_cons]
        refine ⟨?_, hsorted⟩
        intro z hz
        rcases List.mem_cons.1 (hperm.subset hz) with rfl | hz
        · exact le_of_lt hlt
        · exact hs.1 z hz
      · intro t
        have hxy : ¬ (key x = t ∧ key y = t) := by
          rintro ⟨h1, h2⟩; omega
        rw [List.filter_cons, hstab t]
        by_cases h1 : key x = t <;> by_cases h2 : key y = t
        · exact absurd ⟨h1, h2⟩ hxy
        · simp [List.filter_cons, h1, h2]
        · simp [List.filter_cons, h1, h2]
        · simp [List.filter_cons, h1, h2]
    · refine ⟨x :: y :: ys, ?_, List.Perm.refl _, ?_, fun _ => rfl⟩
      · simp [insertBack, hless x y hx hy, hlt]
      · rw [List.pairwise_cons]
        refine ⟨?_, List.pairwise_cons.2 hs⟩
        intro z hz
        rcases List.mem_cons.1 hz with rfl | hz
        · exact not_lt.1 hlt
        · exact le_trans (hs.1 z hz) (not_lt.1 hlt)

theorem sortLoop_spec
    (hless : ∀ x y, P x → P y → less x y = .ok (decide (key x < key y))) :
    ∀ (l done : List α), (∀ y ∈ done, P y) → (∀ y ∈ l, P y) →
      done.Pairwise (fun a b => key b ≤ key a) →
      ∃ r, sortLoop less done l = .ok r ∧ r.Perm (done.reverse ++ l) ∧
        r.Pairwise (fun a b => key a ≤ key b) ∧
        ∀ t : Int, r.filter (fun z => decide (key z = t))
          = (done.reverse ++ l).filter (fun z => decide (key z = t)) := by
  intro l
  induction l with
  | nil =>
    intro done _ _ hs
    refine ⟨done.reverse, by simp [sortLoop], by simp, ?_, by simp⟩
    exact List.pairwise_reverse.2 hs
  | cons x xs ih =>
    intro done hd hl hs
    have hx : P x := hl x (List.mem_cons_self _ _)
    obtain ⟨d2, h2, hperm2, hs2, hstab2⟩ := insertBack_spec less key P hless x hx done hd hs
    have hd2 : ∀ y ∈ d2, P y := by
      intro y hy
      rcases List.mem_cons.1 (hperm2.subset hy) with rfl | hy
      · exact hx
      · exact hd y hy
    obtain ⟨r, hr, hperm, hsorted, hstab⟩ :=
      ih d2 hd2 (fun y hy => hl y (List.mem_cons_of_mem _ hy)) hs2
    refine ⟨r, by simp [sortLoop, h2, hr], ?_, hsorted, ?_⟩
    · refine hperm.trans ?_
      have h3 : d2.reverse.Perm (done.reverse ++ [x]) := by
        refine (List.reverse_perm d2).trans (hperm2.trans ?_)
        refine List.Perm.trans ?_ (List.perm_append_comm)
        exact List.Perm.cons x (List.reverse_perm done).symm
      simpa using h3.append_right xs
    · intro t
      rw [hstab t]
      have h3 : d2.reverse.filter (fun z => decide (key z = t))
          = (done.reverse ++ [x]).filter (fun z => decide (key z = t)) := by
        rw [List.filter_reverse, hstab2 t, ← List.reverse_cons, List.filter_reverse]
      simp only [List.filter_append, h3, List.append_assoc]
      rw [← List.filter_append, List.singleton_append]

/-- The sort returns the stable ascending arrangement of its input when all
comparisons succeed. -/
theorem sortSliceStable_spec
    (hless : ∀ x y, P x → P y → less x y = .ok (decide (key x < key y)))
    (l : List α) (hl : ∀ y ∈ l, P y) :
    ∃ r, sortSliceStable less l = .ok r ∧ r.Perm l ∧
      r.Pairwise (fun a b => key a ≤ key b) ∧
      ∀ t : Int, r.filter (fun z => decide (key z = t))
        = l.filter (fun z => decide (key z = t)) := by
  have h := sortLoop_spec less key P hless l [] (by simp) hl List.Pairwise.nil
  simpa [sortSliceStable] using h

end SortLemmas

theorem lessCreated_parses {σ : Type} (W : World σ) (x y : Snapshot) (b : Bool)
    (h : lessCreated W x y = .ok b) : parses W x = true ∧ parses W y = true := by
  unfold lessCreated at h
  unfold parses parseCreated
  split at h
  · cases h
  · next t1 h1 =>
    split at h
    · cases h
    · next t2 h2 => simp [h1, h2]

theorem lessCreated_eq {σ : Type} (W : World σ) (x y : Snapshot)
    (hx : parses W x = true) (hy : parses W y = true) :
    lessCreated W x y = .ok (decide (createdTime W x < createdTime W y)) := by
  unfold parses parseCreated at hx hy
  unfold lessCreated createdTime parseCreated
  split at hx
  · next t1 h1 =>
    split at hy
    · next t2 h2 => simp [h1, h2]
    · cases hy
  · cases hx

section ProgLemmas

variable {σ ν : Type}

theorem bind_apply {α β : Type} (m : Prog σ ν α) (f : α → Prog σ ν β) (s : σ) (n : ν) :
    (m >>= f) s n = Prog.bind m f s n := rfl

theorem pure_apply {α : Type} (a : α) (s : σ) (n : ν) :
    (pure a : Prog σ ν α) s n = Prog.pure a s n := rfl

theorem bind_of_ok {α β : Type} (m : Prog σ ν α) (f : α → Prog σ ν β) (s : σ) (n : ν) (a : α)
    (h : (m s n).res = .ok a) :
    (m >>= f) s n =
      { trace := (m s n).trace ++ (f a (m s n).world (m s n).slack).trace,
        world := (f a (m s n).world (m s n).slack).world,
        slack := (f a (m s n).world (m s n).slack).slack,
        res := (f a (m s n).world (m s n).slack).res } := by
  simp only [bind_apply, Prog.bind, h]

theorem bind_of_error {α β : Type} (m : Prog σ ν α) (f : α → Prog σ ν β) (s : σ) (n : ν)
    (e : Exit) (h : (m s n).res = .error e) :
    (m >>= f) s n =
      { trace := (m s n).trace, world := (m s n).world, slack := (m s n).slack,
        res := .error e } := by
  simp only [bind_apply, Prog.bind, h]

theorem pure_bind_prog {α β : Type} (a : α) (f : α → Prog σ ν β) :
    ((pure a : Prog σ ν α) >>= f) = f a := by
  funext s n
  rw [bind_of_ok (pure a) f s n a rfl]
  simp [pure_apply, Prog.pure]

theorem logFatal_bind {α β : Type} (msg : String) (f : α → Prog σ ν β) :
    ((logFatal msg : Prog σ ν α) >>= f) = logFatal msg := by
  funext s n
  rw [bind_of_error (logFatal msg) f s n Exit.fatal rfl]
  rfl

/-- The non-fatal error path returns to its caller, leaves the backend
alone, emits only error reports and logs the error it was given. -/
theorem handleError_nonfatal (N : Notifier ν) (ctx : snapshotterContext) (err : String)
    (s : σ) (n : ν) :
    (handleError N ctx err false s n).res = .ok () ∧
    (handleError N ctx err false s n).world = s ∧
    (∀ ev ∈ (handleError N ctx err false s n).trace, ev.isErrorReport = true) ∧
    Event.log Level.error err ∈ (handleError N ctx err false s n).trace := by
  unfold handleError
  cases hc : ctx.Slack with
  | none =>
    simp [bind_apply, pure_apply, Prog.bind, Prog.pure, logAt, Event.isErrorReport]
  | some slack =>
    cases hs : (N.sendEvent slack err Level.error n).1 <;>
    simp [bind_apply, pure_apply, Prog.bind, Prog.pure, logAt, callSendEvent, hs,
      Event.isErrorReport]

/-- The fatal error path ends the process with status 1, leaves the
backend alone and emits only reports, the last being the fatal line. -/
theorem handleError_fatal (N : Notifier ν) (ctx : snapshotterContext) (err : String)
    (s : σ) (n : ν) :
    (handleError N ctx err true s n).res = .error Exit.fatal ∧
    (handleError N ctx err true s n).world = s ∧
    (∀ ev ∈ (handleError N ctx err true s n).trace, ev.isReport = true) ∧
    Event.log Level.fatal err ∈ (handleError N ctx err true s n).trace := by
  unfold handleError
  cases hc : ctx.Slack with
  | none =>
    simp [bind_apply, pure_apply, Prog.bind, Prog.pure, logAt, logFatal, Event.isReport]
  | some slack =>
    cases hs : (N.sendEvent slack err Level.error n).1 <;>
    simp [bind_apply, pure_apply, Prog.bind, Prog.pure, logAt, logFatal, callSendEvent, hs,
      Event.isReport]

/-- The events of the non-fatal error path, one by one. -/
theorem handleError_report (N : Notifier ν) (ctx : snapshotterContext) (err : String)
    (s : σ) (n : ν) :
    ∃ answer, (handleError N ctx err false s n).trace
      = errorReport ctx.Slack.isSome err answer := by
  unfold handleError
  cases hc : ctx.Slack with
  | none =>
    exact ⟨none, by
      simp [bind_apply, pure_apply, Prog.bind, Prog.pure, logAt, errorReport]⟩
  | some slack =>
    refine ⟨(N.sendEvent slack err Level.error n).1, ?_⟩
    cases hs : (N.sendEvent slack err Level.error n).1 <;>
    simp [bind_apply, pure_apply, Prog.bind, Prog.pure, logAt, callSendEvent, hs, errorReport]

theorem orFatal_ok {α : Type} (N : Notifier ν) (ctx : snapshotterContext) (a : α) :
    (orFatal N ctx (.ok a) : Prog σ ν α) = pure a := rfl

theorem orFatal_error {α : Type} (N : Notifier ν) (ctx : snapshotterContext) (err : String)
    (s : σ) (n : ν) :
    (orFatal N ctx (.error err : Except String α) s n).res = .error Exit.fatal ∧
    (orFatal N ctx (.error err : Except String α) s n).trace
      = (handleError N ctx err true s n).trace ∧
    (orFatal N ctx (.error err : Except String α) s n).world
      = (handleError N ctx err true s n).world := by
  have hh := (handleError_fatal N ctx err s n).1
  simp only [orFatal]
  rw [bind_of_error _ _ s n Exit.fatal hh]
  exact ⟨rfl, rfl, rfl⟩

theorem isErrorReport_not_failedDelete (ev : Event) (h : ev.isErrorReport = true) :
    ev.isFailedDelete = false := by
  cases ev <;> simp_all [Event.isErrorReport, Event.isFailedDelete]

theorem isReport_not_failedDelete (ev : Event) (h : ev.isReport = true) :
    ev.isFailedDelete = false := by
  cases ev <;> simp_all [Event.isReport, Event.isFailedDelete]

theorem isErrorReport_isReport (ev : Event) (h : ev.isErrorReport = true) :
    ev.isReport = true := by
  cases ev with
  | sendEvent m l e => cases l <;> simp_all [Event.isErrorReport, Event.isReport]
  | log l m => cases l <;> simp_all [Event.isErrorReport, Event.isReport]
  | _ => simp_all [Event.isErrorReport]

theorem isErrorReport_not_backend (ev : Event) (h : ev.isErrorReport = true) :
    ev.isBackend = false ∧ ev.isCommand = false := by
  cases ev <;> simp_all [Event.isErrorReport, Event.isBackend, Event.isCommand]

theorem deletedEvents_nil : deletedEvents [] = [] := rfl

theorem deletedEvents_cons (x : Snapshot) (l : List Snapshot) :
    deletedEvents (x :: l) =
      Event.deleteSnapshot x.ID none ::
        Event.log Level.info ("Deleted Snapshot with Id " ++ x.ID) :: deletedEvents l := by
  simp [deletedEvents]

theorem deletedEvents_not_failed (l : List Snapshot) :
    ∀ ev ∈ deletedEvents l, ev.isFailedDelete = false := by
  induction l with
  | nil => intro ev h; cases h
  | cons x l ih =>
    intro ev h
    rw [deletedEvents_cons] at h
    rcases List.mem_cons.1 h with rfl | h
    · rfl
    · rcases List.mem_cons.1 h with rfl | h
      · rfl
      · exact ih ev h

theorem deleteCalls_deletedEvents (l : List Snapshot) :
    deleteCalls (deletedEvents l) = l.map Snapshot.ID := by
  induction l with
  | nil => rfl
  | cons x l ih =>
    rw [deletedEvents_cons]
    simp only [deleteCalls, List.filterMap_cons, List.map_cons] at ih ⊢
    rw [ih]

theorem deleteCalls_append (a b : List Event) :
    deleteCalls (a ++ b) = deleteCalls a ++ deleteCalls b := by
  simp [deleteCalls, List.filterMap_append]

theorem deleteCalls_cons_delete (snapshotID : String) (err : Option String) (t : List Event) :
    deleteCalls (Event.deleteSnapshot snapshotID err :: t) = snapshotID :: deleteCalls t := rfl

theorem deleteCalls_of_reports (t : List Event) (h : ∀ ev ∈ t, ev.isReport = true) :
    deleteCalls t = [] := by
  induction t with
  | nil => rfl
  | cons ev t ih =>
    have h1 := h ev (List.mem_cons_self _ _)
    have h2 := ih (fun e he => h e (List.mem_cons_of_mem _ he))
    cases ev <;> simp_all [deleteCalls, Event.isReport]

theorem deleteLoop_zero (W : World σ) (N : Notifier ν) (ctx : snapshotterContext)
    (snapshots : List Snapshot) (i : Nat) (s : σ) (n : ν) :
    deleteLoop W N ctx snapshots 0 i s n = { trace := [], world := s, slack := n, res := .ok () } :=
  rfl

theorem deleteLoop_succ_none (W : World σ) (N : Notifier ν) (ctx : snapshotterContext)
    (snapshots : List Snapshot) (remaining i : Nat) (s : σ) (n : ν)
    (h : snapshots[i]? = none) :
    deleteLoop W N ctx snapshots (remaining + 1) i s n
      = { trace := [], world := s, slack := n, res := .error Exit.panicked } := by
  simp [deleteLoop, h, exitWith]

theorem deleteLoop_succ_fail (W : World σ) (N : Notifier ν) (ctx : snapshotterContext)
    (snapshots : List Snapshot) (remaining i : Nat) (s : σ) (n : ν) (x : Snapshot) (e : String)
    (h : snapshots[i]? = some x) (hd : (W.deleteSnapshot ctx.DoContext x.ID s).1 = some e) :
    (deleteLoop W N ctx snapshots (remaining + 1) i s n).trace
        = Event.deleteSnapshot x.ID (some e) ::
          (handleError N ctx e false (W.deleteSnapshot ctx.DoContext x.ID s).2 n).trace ∧
    (deleteLoop W N ctx snapshots (remaining + 1) i s n).res = .error Exit.returned := by
  have hh := (handleError_nonfatal N ctx e (W.deleteSnapshot ctx.DoContext x.ID s).2 n).1
  simp [deleteLoop, h, bind_apply, Prog.bind, callDeleteSnapshot, hd, hh, exitWith]

theorem deleteLoop_succ_ok (W : World σ) (N : Notifier ν) (ctx : snapshotterContext)
    (snapshots : List Snapshot) (remaining i : Nat) (s : σ) (n : ν) (x : Snapshot)
    (h : snapshots[i]? = some x) (hd : (W.deleteSnapshot ctx.DoContext x.ID s).1 = none) :
    (deleteLoop W N ctx snapshots (remaining + 1) i s n).trace
        = Event.deleteSnapshot x.ID none ::
          Event.log Level.info ("Deleted Snapshot with Id " ++ x.ID) ::
          (deleteLoop W N ctx snapshots remaining (i + 1)
            (W.deleteSnapshot ctx.DoContext x.ID s).2 n).trace ∧
    (deleteLoop W N ctx snapshots (remaining + 1) i s n).res
        = (deleteLoop W N ctx snapshots remaining (i + 1)
            (W.deleteSnapshot ctx.DoContext x.ID s).2 n).res ∧
    (deleteLoop W N ctx snapshots (remaining + 1) i s n).world
        = (deleteLoop W N ctx snapshots remaining (i + 1)
            (W.deleteSnapshot ctx.DoContext x.ID s).2 n).world := by
  simp only [deleteLoop, h, bind_apply, Prog.bind, callDeleteSnapshot, hd, logAt]
  refine ⟨?_, ?_, ?_⟩ <;> simp

/-- The three ways the deletion loop can end, with the calls it made:
it completes, it reads past the end of the slice, or a deletion fails. -/
theorem deleteLoop_shape (W : World σ) (N : Notifier ν) (ctx : snapshotterContext)
    (snapshots : List Snapshot) :
    ∀ (remaining i : Nat) (s : σ) (n : ν), i ≤ snapshots.length →
      ((deleteLoop W N ctx snapshots remaining i s n).res = .ok () ∧
        i + remaining ≤ snapshots.length ∧
        (deleteLoop W N ctx snapshots remaining i s n).trace
          = deletedEvents ((snapshots.drop i).take remaining)) ∨
      ((deleteLoop W N ctx snapshots remaining i s n).res = .error Exit.panicked ∧
        snapshots.length < i + remaining ∧
        (deleteLoop W N ctx snapshots remaining i s n).trace
          = deletedEvents (snapshots.drop i)) ∨
      (∃ (j : Nat) (x : Snapshot) (e : String) (post : List Event),
        j < remaining ∧ snapshots[i + j]? = some x ∧
        (deleteLoop W N ctx snapshots remaining i s n).trace
          = deletedEvents ((snapshots.drop i).take j)
            ++ Event.deleteSnapshot x.ID (some e) :: post ∧
        (∀ ev ∈ post, ev.isErrorReport = true) ∧
        Event.log Level.error e ∈ post ∧
        (deleteLoop W N ctx snapshots remaining i s n).res = .error Exit.returned ∧
        ∃ answer, post = errorReport ctx.Slack.isSome e answer) := by
  intro remaining
  induction remaining with
  | zero =>
    intro i s n hi
    left
    simp [deleteLoop_zero, hi, deletedEvents]
  | succ remaining ih =>
    intro i s n hi
    cases hget : snapshots[i]? with
    | none =>
      right; left
      have hlen : snapshots.length ≤ i := List.getElem?_eq_none_iff.1 hget
      rw [deleteLoop_succ_none W N ctx snapshots remaining i s n hget]
      refine ⟨rfl, by omega, ?_⟩
      rw [List.drop_eq_nil_of_le hlen]
      rfl
    | some x =>
      have hlt : i < snapshots.length := by
        by_contra hc
        rw [List.getElem?_eq_none_iff.2 (not_lt.1 hc)] at hget
        cases hget
      have hdrop : snapshots.drop i = x :: snapshots.drop (i + 1) := by
        rw [List.drop_eq_getElem_cons hlt]
        congr 1
        have := List.getElem?_eq_getElem hlt
        rw [hget] at this
        exact (Option.some.inj this).symm
      cases hd : (W.deleteSnapshot ctx.DoContext x.ID s).1 with
      | some e =>
        right; right
        obtain ⟨ht, hr⟩ := deleteLoop_succ_fail W N ctx snapshots remaining i s n x e hget hd
        obtain ⟨_, _, h3, h4⟩ :=
          handleError_nonfatal N ctx e (W.deleteSnapshot ctx.DoContext x.ID s).2 n
        refine ⟨0, x, e, _, Nat.succ_pos _, by simpa using hget, ?_, h3, h4, hr,
          handleError_report N ctx e (W.deleteSnapshot ctx.DoContext x.ID s).2 n⟩
        rw [ht]
        simp [deletedEvents]
      | none =>
        obtain ⟨ht, hr, _⟩ := deleteLoop_succ_ok W N ctx snapshots remaining i s n x hget hd
        rcases ih (i + 1) (W.deleteSnapshot ctx.DoContext x.ID s).2 n hlt with
          ⟨h1, h2, h3⟩ | ⟨h1, h2, h3⟩ | ⟨j, y, e, post, h1, h2, h3, h4, h5, h6, h7⟩
        · left
          refine ⟨by rw [hr, h1], by omega, ?_⟩
          rw [ht, h3, hdrop, List.take_succ_cons, deletedEvents_cons]
        · right; left
          refine ⟨by rw [hr, h1], by omega, ?_⟩
          rw [ht, h3, hdrop, deletedEvents_cons]
        · right; right
          refine ⟨j + 1, y, e, post, by omega, ?_, ?_, h4, h5, by rw [hr, h6], h7⟩
          · rw [← h2]; congr 1; omega
          · rw [ht, h3, hdrop, List.take_succ_cons, deletedEvents_cons]
            simp

end ProgLemmas

section PruneLemmas

variable {σ ν : Type}

theorem wrapInt64_of_range (x : Int) (h1 : -9223372036854775808 ≤ x)
    (h2 : x < 9223372036854775808) : wrapInt64 x = x := by
  unfold wrapInt64
  norm_num
  omega

theorem pruneSnapshots_skip (W : World σ) (N : Notifier ν) (ctx : snapshotterContext)
    (snapshotCount : Int) (snapshots : List Snapshot) (s : σ) (n : ν)
    (h : (snapshots.length : Int) ≤ snapshotCount) :
    pruneSnapshots W N ctx snapshotCount snapshots s n
      = { trace := [], world := s, slack := n, res := .ok () } := by
  have h2 : ¬ ((snapshots.length : Int) > snapshotCount) := not_lt.2 h
  simp only [pruneSnapshots, h2, if_false]
  rfl

theorem pruneSnapshots_sorted (W : World σ) (N : Notifier ν) (ctx : snapshotterContext)
    (snapshotCount : Int) (snapshots sorted : List Snapshot) (s : σ) (n : ν)
    (h : snapshotCount < (snapshots.length : Int))
    (hs : sortSliceStable (lessCreated W) snapshots = .ok sorted) :
    pruneSnapshots W N ctx snapshotCount snapshots s n
      = deleteLoop W N ctx sorted
          (wrapInt64 ((snapshots.length : Int) - snapshotCount)).toNat 0 s n := by
  have h2 : (snapshots.length : Int) > snapshotCount := h
  simp only [pruneSnapshots, h2, if_true, hs, orFatal_ok, pure_bind_prog]

theorem pruneSnapshots_parse_error (W : World σ) (N : Notifier ν) (ctx : snapshotterContext)
    (snapshotCount : Int) (snapshots : List Snapshot) (err : String) (s : σ) (n : ν)
    (h : snapshotCount < (snapshots.length : Int))
    (hs : sortSliceStable (lessCreated W) snapshots = .error err) :
    (pruneSnapshots W N ctx snapshotCount snapshots s n).res = .error Exit.fatal ∧
    (pruneSnapshots W N ctx snapshotCount snapshots s n).trace
      = (handleError N ctx err true s n).trace ∧
    (pruneSnapshots W N ctx snapshotCount snapshots s n).world
      = (handleError N ctx err true s n).world := by
  have h2 : (snapshots.length : Int) > snapshotCount := h
  obtain ⟨h3, h4, h5⟩ := orFatal_error (α := List Snapshot) N ctx err s n
  simp only [pruneSnapshots, h2, if_true, hs]
  rw [bind_of_error _ _ s n Exit.fatal h3]
  exact ⟨rfl, h4, h5⟩

/-- What the sort of `main` returns on records that all parse. -/
theorem sort_created_spec (W : World σ) (snapshots : List Snapshot)
    (hparse : ∀ x ∈ snapshots, parses W x = true) :
    ∃ sorted, sortSliceStable (lessCreated W) snapshots = .ok sorted ∧
      sorted.Perm snapshots ∧
      sorted.Pairwise (fun a b => createdTime W a ≤ createdTime W b) ∧
      ∀ t : Int, sorted.filter (fun z => decide (createdTime W z = t))
        = snapshots.filter (fun z => decide (createdTime W z = t)) :=
  sortSliceStable_spec (lessCreated W) (createdTime W) (fun x => parses W x = true)
    (fun x y hx hy => lessCreated_eq W x y hx hy) snapshots hparse

theorem take_succ_of_getElem? {α : Type} (l : List α) (j : Nat) (x : α) (h : l[j]? = some x) :
    l.take (j + 1) = l.take j ++ [x] := by
  rw [List.take_succ, h]
  rfl

/-- The delete calls of the pruning step are the identifiers of a leading
segment of the sorted records, whatever the answers of the backend. -/
theorem pruneSnapshots_calls (W : World σ) (N : Notifier ν) (ctx : snapshotterContext)
    (snapshotCount : Int) (snapshots : List Snapshot) (s : σ) (n : ν)
    (hparse : ∀ x ∈ snapshots, parses W x = true) :
    ∃ (sorted : List Snapshot) (c : Nat),
      sortSliceStable (lessCreated W) snapshots = .ok sorted ∧
      deleteCalls (pruneSnapshots W N ctx snapshotCount snapshots s n).trace
        = (sorted.take c).map Snapshot.ID := by
  obtain ⟨sorted, hs, -, -, -⟩ := sort_created_spec W snapshots hparse
  by_cases h : snapshotCount < (snapshots.length : Int)
  · rw [pruneSnapshots_sorted W N ctx snapshotCount snapshots sorted s n h hs]
    rcases deleteLoop_shape W N ctx sorted
        (wrapInt64 ((snapshots.length : Int) - snapshotCount)).toNat 0 s n (Nat.zero_le _) with
      ⟨-, -, h3⟩ | ⟨-, -, h3⟩ | ⟨j, x, e, post, -, h2, h3, h4, -, -⟩
    · exact ⟨sorted, _, hs, by rw [h3, deleteCalls_deletedEvents, List.drop_zero]⟩
    · refine ⟨sorted, sorted.length, hs, ?_⟩
      rw [h3, deleteCalls_deletedEvents, List.drop_zero, List.take_length]
    · refine ⟨sorted, j + 1, hs, ?_⟩
      rw [Nat.zero_add] at h2
      have hpost : deleteCalls post = [] :=
        deleteCalls_of_reports post (fun ev hev => isErrorReport_isReport ev (h4 ev hev))
      rw [h3, deleteCalls_append, deleteCalls_deletedEvents, List.drop_zero,
        take_succ_of_getElem? sorted j x h2, List.map_append, deleteCalls_cons_delete, hpost]
      rfl
  · rw [pruneSnapshots_skip W N ctx snapshotCount snapshots s n (not_lt.1 h)]
    exact ⟨sorted, 0, hs, rfl⟩

end PruneLemmas

/-- A stable ascending arrangement is unique: two lists that are both
non-decreasing by `key` and hold, for every key, the same elements in the
same order, are equal.  So every stable sort returns what `sortSliceStable`
returns. -/
theorem stable_sorted_unique {α : Type} (key : α → Int) :
    ∀ (r1 r2 : List α),
      r1.Pairwise (fun a b => key a ≤ key b) → r2.Pairwise (fun a b => key a ≤ key b) →
      (∀ t : Int, r1.filter (fun z => decide (key z = t))
        = r2.filter (fun z => decide (key z = t))) →
      r1 = r2 := by
  intro r1
  induction r1 with
  | nil =>
    intro r2 _ _ h
    cases r2 with
    | nil => rfl
    | cons y r2 =>
      have := h (key y)
      simp at this
  | cons x r1 ih =>
    intro r2 h1 h2 h
    cases r2 with
    | nil =>
      have := h (key x)
      simp at this
    | cons y r2 =>
      rw [List.pairwise_cons] at h1 h2
      have hx : x ∈ y :: r2 := by
        have hmem : x ∈ (x :: r1).filter (fun z => decide (key z = key x)) := by simp
        rw [h (key x)] at hmem
        exact (List.mem_filter.1 hmem).1
      have hy : y ∈ x :: r1 := by
        have hmem : y ∈ (y :: r2).filter (fun z => decide (key z = key y)) := by simp
        rw [← h (key y)] at hmem
        exact (List.mem_filter.1 hmem).1
      have hle1 : key y ≤ key x := by
        rcases List.mem_cons.1 hx with rfl | hx
        · exact le_refl _
        · exact h2.1 x hx
      have hle2 : key x ≤ key y := by
        rcases List.mem_cons.1 hy with rfl | hy
        · exact le_refl _
        · exact h1.1 y hy
      have hk : key y = key x := le_antisymm hle1 hle2
      have h0 := h (key x)
      simp only [List.filter_cons, hk, decide_True, if_true, List.cons.injEq] at h0
      obtain ⟨hxy, -⟩ := h0
      subst hxy
      congr 1
      refine ih r2 h1.2 h2.2 ?_
      intro t
      have ht := h t
      by_cases hkt : key x = t
      · simpa [List.filter_cons, hkt] using ht
      · simpa [List.filter_cons, hkt] using ht

theorem insertBack_length {α ε : Type} (less : α → α → Except ε Bool) (x : α) :
    ∀ (done r : List α), insertBack less x done = .ok r → r.length = done.length + 1 := by
  intro done
  induction done with
  | nil => intro r h; simp [insertBack] at h; subst h; rfl
  | cons y ys ih =>
    intro r h
    simp only [insertBack] at h
    split at h
    · cases h
    · cases h; rfl
    · split at h
      · cases h
      · next rest hrest =>
        cases h
        simp [ih rest hrest]

theorem sortLoop_length {α ε : Type} (less : α → α → Except ε Bool) :
    ∀ (l done r : List α), sortLoop less done l = .ok r → r.length = done.length + l.length := by
  intro l
  induction l with
  | nil => intro done r h; simp [sortLoop] at h; subst h; simp
  | cons x xs ih =>
    intro done r h
    simp only [sortLoop] at h
    split at h
    · cases h
    · next d2 hd =>
      rw [ih d2 r h, insertBack_length less x done d2 hd, List.length_cons]
      omega

theorem sortSliceStable_length {α ε : Type} (less : α → α → Except ε Bool) (l r : List α)
    (h : sortSliceStable less l = .ok r) : r.length = l.length := by
  have := sortLoop_length less l [] r h
  simpa using this

/-- With a retention count `k ≥ 0` the deletion loop stays inside the
sorted slice: the pruning step never ends in a runtime panic. -/
theorem pruneSnapshots_in_range {σ ν : Type} (W : World σ) (N : Notifier ν)
    (ctx : snapshotterContext) (snapshotCount : Int) (snapshots : List Snapshot)
    (s : σ) (n : ν) (hcount : 0 ≤ snapshotCount)
    (hlen : (snapshots.length : Int) < 2 ^ 63) :
    (pruneSnapshots W N ctx snapshotCount snapshots s n).res ≠ .error Exit.panicked := by
  by_cases h : snapshotCount < (snapshots.length : Int)
  · cases hs : sortSliceStable (lessCreated W) snapshots with
    | error err =>
      rw [(pruneSnapshots_parse_error W N ctx snapshotCount snapshots err s n h hs).1]
      simp
    | ok sorted =>
      have hwrap : wrapInt64 ((snapshots.length : Int) - snapshotCount)
          = (snapshots.length : Int) - snapshotCount := by
        apply wrapInt64_of_range <;> norm_num at hlen ⊢ <;> omega
      rw [pruneSnapshots_sorted W N ctx snapshotCount snapshots sorted s n h hs, hwrap]
      have hl := sortSliceStable_length (lessCreated W) snapshots sorted hs
      rcases deleteLoop_shape W N ctx sorted ((snapshots.length : Int) - snapshotCount).toNat 0 s n
          (Nat.zero_le _) with
        ⟨h1, -, -⟩ | ⟨-, h2, -⟩ | ⟨j, x, e, post, -, -, -, -, -, h6, -⟩
      · rw [h1]; simp
      · omega
      · rw [h6]; simp
  · rw [pruneSnapshots_skip W N ctx snapshotCount snapshots s n (not_lt.1 h)]
    simp

section MainLemmas

variable {σ ν : Type}

theorem clean_nil : Clean [] := fun _ h => by cases h

theorem clean_append {a b : List Event} (ha : Clean a) (hb : Clean b) : Clean (a ++ b) := by
  intro ev h
  rcases List.mem_append.1 h with h | h
  · exact ha ev h
  · exact hb ev h

theorem clean_of_reports {t : List Event} (h : ∀ ev ∈ t, ev.isReport = true) : Clean t :=
  fun ev hev => isReport_not_failedDelete ev (h ev hev)

theorem stopped_append {W : World σ} {b : Bool} {p t : List Event} (hp : Clean p)
    (ht : StoppedAtDelete W b t) : StoppedAtDelete W b (p ++ t) := by
  obtain ⟨before, volumeID, snapshots, sorted, j, x, e, post, h1, h2, h3, h4, h5, h6, h7⟩ := ht
  refine ⟨p ++ before, volumeID, snapshots, sorted, j, x, e, post, h1, h2, ?_,
    clean_append hp h4, h5, h6, h7⟩
  rw [h3, List.append_assoc]

/-- Sequencing keeps the two kinds of run. -/
theorem good_bind {α β : Type} (W : World σ) {b : Bool} (m : Prog σ ν α) (f : α → Prog σ ν β)
    (s : σ) (n : ν) (hm : Good W b (m s n))
    (hf : ∀ a s2 n2, Good W b (f a s2 n2)) : Good W b ((m >>= f) s n) := by
  cases hres : (m s n).res with
  | error e =>
    rw [bind_of_error m f s n e hres]
    rcases hm with hm | ⟨hm, hr⟩
    · exact Or.inl hm
    · right
      refine ⟨hm, ?_⟩
      rw [hres] at hr
      cases hr
      rfl
  | ok a =>
    rw [bind_of_ok m f s n a hres]
    rcases hm with hm | ⟨_, hr⟩
    · rcases hf a (m s n).world (m s n).slack with h2 | ⟨h2, hr2⟩
      · exact Or.inl (clean_append hm h2)
      · exact Or.inr ⟨stopped_append hm h2, hr2⟩
    · rw [hres] at hr
      cases hr

theorem good_of_clean {α : Type} (W : World σ) {b : Bool} (r : Run σ ν α) (h : Clean r.trace) : Good W b r :=
  Or.inl h

theorem good_pure {α : Type} (W : World σ) {b : Bool} (a : α) (s : σ) (n : ν) :
    Good W b ((pure a : Prog σ ν α) s n) :=
  Or.inl clean_nil

theorem good_exitWith {α : Type} (W : World σ) {b : Bool} (e : Exit) (s : σ) (n : ν) :
    Good W b ((exitWith e : Prog σ ν α) s n) :=
  Or.inl clean_nil

theorem good_logAt (W : World σ) {b : Bool} (l : Level) (msg : String) (s : σ) (n : ν) :
    Good W b ((logAt l msg : Prog σ ν Unit) s n) :=
  Or.inl (fun ev h => by
    simp only [logAt, List.mem_singleton] at h
    subst h
    rfl)

theorem good_logFatal {α : Type} (W : World σ) {b : Bool} (msg : String) (s : σ) (n : ν) :
    Good W b ((logFatal msg : Prog σ ν α) s n) :=
  Or.inl (fun ev h => by
    simp only [logFatal, List.mem_singleton] at h
    subst h
    rfl)

theorem good_handleError (W : World σ) {b : Bool} (N : Notifier ν) (ctx : snapshotterContext)
    (err : String) (fatal : Bool) (s : σ) (n : ν) :
    Good W b (handleError N ctx err fatal s n) := by
  left
  cases fatal with
  | true => exact clean_of_reports (handleError_fatal N ctx err s n).2.2.1
  | false =>
    exact fun ev hev =>
      isErrorReport_not_failedDelete ev ((handleError_nonfatal N ctx err s n).2.2.1 ev hev)

theorem good_callGetVolume (W : World σ) {b : Bool} (c : DigitalOceanContext) (v : String) (s : σ) (n : ν) :
    Good W b ((callGetVolume W c v : Prog σ ν _) s n) :=
  Or.inl (fun ev h => by
    simp only [callGetVolume, List.mem_singleton] at h
    subst h
    rfl)

theorem good_callCreateSnapshot (W : World σ) {b : Bool} (c : DigitalOceanContext) (v l : String)
    (s : σ) (n : ν) :
    Good W b ((callCreateSnapshot W c v l : Prog σ ν _) s n) :=
  Or.inl (fun ev h => by
    simp only [callCreateSnapshot, List.mem_singleton] at h
    subst h
    rfl)

theorem good_callSendEvent (W : World σ) {b : Bool} (N : Notifier ν) (c : SlackContext) (msg : String)
    (l : Level) (s : σ) (n : ν) :
    Good W b ((callSendEvent N c msg l : Prog σ ν _) s n) :=
  Or.inl (fun ev h => by
    simp only [callSendEvent, List.mem_singleton] at h
    subst h
    rfl)

theorem good_callExecRun (W : World σ) {b : Bool} (cmd : String) (s : σ) (n : ν) :
    Good W b ((callExecRun W cmd : Prog σ ν _) s n) :=
  Or.inl (fun ev h => by
    simp only [callExecRun, List.mem_singleton] at h
    subst h
    rfl)

/-- The pruning step on its own: no delete call failed, or it stopped at
the failed one. -/
theorem pruneSnapshots_shape (W : World σ) (N : Notifier ν) (ctx : snapshotterContext)
    (snapshotCount : Int) (snapshots : List Snapshot) (s : σ) (n : ν) :
    Clean (pruneSnapshots W N ctx snapshotCount snapshots s n).trace ∨
    (∃ (sorted : List Snapshot) (j : Nat) (x : Snapshot) (e : String) (post : List Event),
      sortSliceStable (lessCreated W) snapshots = .ok sorted ∧ sorted[j]? = some x ∧
      (pruneSnapshots W N ctx snapshotCount snapshots s n).trace
        = deletedEvents (sorted.take j) ++ Event.deleteSnapshot x.ID (some e) :: post ∧
      (∀ ev ∈ post, ev.isErrorReport = true) ∧ Event.log Level.error e ∈ post ∧
      (pruneSnapshots W N ctx snapshotCount snapshots s n).res = .error Exit.returned ∧
      ∃ answer, post = errorReport ctx.Slack.isSome e answer) := by
  by_cases h : snapshotCount < (snapshots.length : Int)
  · cases hs : sortSliceStable (lessCreated W) snapshots with
    | error err =>
      left
      rw [(pruneSnapshots_parse_error W N ctx snapshotCount snapshots err s n h hs).2.1]
      exact clean_of_reports (handleError_fatal N ctx err s n).2.2.1
    | ok sorted =>
      rw [pruneSnapshots_sorted W N ctx snapshotCount snapshots sorted s n h hs]
      rcases deleteLoop_shape W N ctx sorted
          (wrapInt64 ((snapshots.length : Int) - snapshotCount)).toNat 0 s n (Nat.zero_le _) with
        ⟨-, -, h3⟩ | ⟨-, -, h3⟩ | ⟨j, x, e, post, -, h2, h3, h4, h5, h6, h7⟩
      · left; rw [h3]; exact deletedEvents_not_failed _
      · left; rw [h3]; exact deletedEvents_not_failed _
      · right
        rw [Nat.zero_add] at h2
        rw [List.drop_zero] at h3
        exact ⟨sorted, j, x, e, post, rfl, h2, h3, h4, h5, h6, h7⟩
  · left
    rw [pruneSnapshots_skip W N ctx snapshotCount snapshots s n (not_lt.1 h)]
    exact clean_nil

theorem good_orFatal {α : Type} (W : World σ) {b : Bool} (N : Notifier ν) (ctx : snapshotterContext)
    (r : Except String α) (s : σ) (n : ν) : Good W b ((orFatal N ctx r : Prog σ ν α) s n) := by
  cases r with
  | ok a => exact good_pure W a s n
  | error err =>
    left
    rw [(orFatal_error N ctx err s n).2.1]
    exact clean_of_reports (handleError_fatal N ctx err s n).2.2.1

/-- The listing followed by the pruning step. -/
theorem good_list_prune (W : World σ) (N : Notifier ν) (ctx : snapshotterContext)
    (snapshotCount : Int) (volumeID : String) (s : σ) (n : ν) :
    Good W ctx.Slack.isSome ((callListSnapshots W ctx.DoContext volumeID 100 >>= fun r =>
      orFatal N ctx r >>= fun snapshots =>
      pruneSnapshots W N ctx snapshotCount snapshots) s n) := by
  have hclean : Clean (callListSnapshots W ctx.DoContext volumeID 100 s n : Run σ ν _).trace := by
    intro ev hev
    simp only [callListSnapshots, List.mem_singleton] at hev
    subst hev
    rfl
  rw [bind_of_ok _ _ s n (W.listSnapshots ctx.DoContext volumeID 100 s).1 rfl]
  cases hr : (W.listSnapshots ctx.DoContext volumeID 100 s).1 with
  | error err =>
    left
    obtain ⟨h3, h4, -⟩ := orFatal_error (α := List Snapshot) N ctx err
      (callListSnapshots W ctx.DoContext volumeID 100 s n).world
      (callListSnapshots W ctx.DoContext volumeID 100 s n).slack
    simp only []
    rw [bind_of_error _ _ _ _ Exit.fatal h3, h4]
    exact clean_append hclean (clean_of_reports (handleError_fatal N ctx err _ _).2.2.1)
  | ok snapshots =>
    simp only [orFatal_ok, pure_bind_prog]
    rcases pruneSnapshots_shape W N ctx snapshotCount snapshots
        (callListSnapshots W ctx.DoContext volumeID 100 s n).world
        (callListSnapshots W ctx.DoContext volumeID 100 s n).slack with h | h
    · left
      exact clean_append hclean h
    · right
      obtain ⟨sorted, j, x, e, post, h1, h2, h3, h4, h5, h6, h7⟩ := h
      refine ⟨⟨[], volumeID, snapshots, sorted, j, x, e, post, h1, h2, ?_, clean_nil, h4, h5, h7⟩,
        h6⟩
      simp only [callListSnapshots] at h3 ⊢
      rw [h3, hr]
      rfl

end MainLemmas

section MainLemmas2

variable {σ ν : Type}

theorem good_lookupOrFatal (W : World σ) {b : Bool} (env : Env) (key msg : String) (s : σ) (n : ν) :
    Good W b ((lookupOrFatal env key msg : Prog σ ν String) s n) := by
  unfold lookupOrFatal
  cases env key with
  | none => exact good_logFatal W _ s n
  | some v => exact good_pure W v s n

theorem good_processVolume (W : World σ) (N : Notifier ν) (ctx : snapshotterContext)
    (snapshotCount : Int) (volumeID : String) (s : σ) (n : ν) :
    Good W ctx.Slack.isSome (processVolume W N ctx snapshotCount volumeID s n) := by
  unfold processVolume
  refine good_bind W _ _ s n (good_callGetVolume W _ _ s n) ?_
  intro r s2 n2
  refine good_bind W _ _ s2 n2 (good_orFatal W N ctx r s2 n2) ?_
  intro volume s3 n3
  refine good_bind W _ _ s3 n3 (good_callCreateSnapshot W _ _ _ s3 n3) ?_
  intro r2 s4 n4
  refine good_bind W _ _ s4 n4 (good_orFatal W N ctx r2 s4 n4) ?_
  intro snapshot s5 n5
  refine good_bind W _ _ s5 n5 (good_logAt W _ _ s5 n5) ?_
  intro _ s6 n6
  exact good_list_prune W N ctx snapshotCount volume.ID s6 n6

theorem good_forVolumes (W : World σ) (N : Notifier ν) (ctx : snapshotterContext)
    (snapshotCount : Int) :
    ∀ (volumeIDs : List String) (s : σ) (n : ν),
      Good W ctx.Slack.isSome (forVolumes W N ctx snapshotCount volumeIDs s n) := by
  intro volumeIDs
  induction volumeIDs with
  | nil => intro s n; exact good_pure W () s n
  | cons v rest ih =>
    intro s n
    unfold forVolumes
    exact good_bind W _ _ s n (good_processVolume W N ctx snapshotCount v s n)
      (fun _ s2 n2 => ih s2 n2)

theorem good_finish (W : World σ) {b : Bool} (N : Notifier ν) (env : Env) (ctx : snapshotterContext)
    (volumeCount : Nat) (s : σ) (n : ν) :
    Good W b (finish W N env ctx volumeCount s n) := by
  unfold finish
  refine good_bind W _ _ s n ?_ ?_
  · cases ctx.Slack with
    | none => exact good_pure W _ s n
    | some slack =>
      refine good_bind W _ _ s n (good_callSendEvent W N _ _ _ s n) ?_
      intro r s2 n2
      cases r with
      | none => exact good_pure W _ s2 n2
      | some e => exact good_handleError W N ctx e false s2 n2
  intro _ s3 n3
  cases env "SUCCESS_COMMAND" with
  | none => exact good_pure W _ s3 n3
  | some cmd =>
    refine good_bind W _ _ s3 n3 (good_callExecRun W _ s3 n3) ?_
    intro r s4 n4
    cases r with
    | none => exact good_pure W _ s4 n4
    | some e =>
      exact good_bind W _ _ s4 n4 (good_handleError W N ctx e true s4 n4)
        (fun _ s5 n5 => good_exitWith W Exit.fatal s5 n5)

end MainLemmas2

section ConfigLemmas

variable {σ ν : Type}

theorem lookupOrFatal_none (env : Env) (key msg : String) (h : env key = none) :
    (lookupOrFatal env key msg : Prog σ ν String) = logFatal msg := by
  simp only [lookupOrFatal, h]

theorem lookupOrFatal_some (env : Env) (key msg v : String) (h : env key = some v) :
    (lookupOrFatal env key msg : Prog σ ν String) = pure v := by
  simp only [lookupOrFatal, h]

/-- The configuration part of `main`: either a variable is missing or
malformed and `main` is one `log.Fatal`, or the context is built and `main`
is the loop over the volumes followed by the end of `main`. -/
theorem main_config (env : Env) (W : World σ) (N : Notifier ν) :
    ((∃ msg, main env W N = logFatal msg) ∧
      (env "DO_TOKEN" = none ∨ env "DO_VOLUMES" = none ∨ env "DO_SNAPSHOT_COUNT" = none ∨
        (∃ v, env "DO_SNAPSHOT_COUNT" = some v ∧ strconvAtoi v = none) ∨
        (getenv env "SLACK_TOKEN" ≠ "" ∧ env "SLACK_CHANNEL_ID" = none))) ∨
    (∃ (tok vols cs : String) (k : Int) (sc : Option SlackContext),
      env "DO_TOKEN" = some tok ∧ env "DO_VOLUMES" = some vols ∧
      env "DO_SNAPSHOT_COUNT" = some cs ∧ strconvAtoi cs = some k ∧
      ((getenv env "SLACK_TOKEN" = "" ∧ sc = none) ∨
        (getenv env "SLACK_TOKEN" ≠ "" ∧ ∃ ch, env "SLACK_CHANNEL_ID" = some ch ∧
          sc = some { token := getenv env "SLACK_TOKEN", channelID := ch })) ∧
      main env W N =
        (forVolumes W N { DoContext := { token := tok }, Slack := sc } k (stringsSplitComma vols)
          >>= fun _ =>
            finish W N env { DoContext := { token := tok }, Slack := sc }
              (stringsSplitComma vols).length)) := by
  unfold main
  cases h1 : env "DO_TOKEN" with
  | none =>
    left
    exact ⟨⟨_, by rw [lookupOrFatal_none env _ _ h1, logFatal_bind]⟩, Or.inl rfl⟩
  | some tok =>
    rw [lookupOrFatal_some env _ _ tok h1, pure_bind_prog]
    cases h2 : env "DO_VOLUMES" with
    | none =>
      left
      exact ⟨⟨_, by rw [lookupOrFatal_none env _ _ h2, logFatal_bind]⟩, Or.inr (Or.inl rfl)⟩
    | some vols =>
      rw [lookupOrFatal_some env _ _ vols h2, pure_bind_prog]
      cases h3 : env "DO_SNAPSHOT_COUNT" with
      | none =>
        left
        exact ⟨⟨_, by rw [lookupOrFatal_none env _ _ h3, logFatal_bind]⟩,
          Or.inr (Or.inr (Or.inl rfl))⟩
      | some cs =>
        rw [lookupOrFatal_some env _ _ cs h3, pure_bind_prog]
        cases h4 : strconvAtoi cs with
        | none =>
          left
          exact ⟨⟨_, by rw [logFatal_bind]⟩,
            Or.inr (Or.inr (Or.inr (Or.inl ⟨cs, rfl, h4⟩)))⟩
        | some k =>
          simp only [pure_bind_prog]
          by_cases h5 : getenv env "SLACK_TOKEN" ≠ ""
          · rw [if_pos h5]
            cases h6 : env "SLACK_CHANNEL_ID" with
            | none =>
              left
              exact ⟨⟨_, by rw [lookupOrFatal_none env _ _ h6, logFatal_bind, logFatal_bind]⟩,
                Or.inr (Or.inr (Or.inr (Or.inr ⟨h5, rfl⟩)))⟩
            | some ch =>
              right
              refine ⟨tok, vols, cs, k, _, rfl, rfl, rfl, h4, Or.inr ⟨h5, ch, rfl, rfl⟩, ?_⟩
              rw [lookupOrFatal_some env _ _ ch h6, pure_bind_prog, pure_bind_prog]
          · rw [if_neg h5, pure_bind_prog]
            right
            exact ⟨tok, vols, cs, k, none, rfl, rfl, rfl, h4, Or.inl ⟨not_not.1 h5, rfl⟩, rfl⟩

/-- Every run of `main` is of one of the two kinds; the notifier is
configured exactly when `SLACK_TOKEN` is not empty. -/
theorem good_main (env : Env) (W : World σ) (N : Notifier ν) (s : σ) (n : ν) :
    Good W (decide (getenv env "SLACK_TOKEN" ≠ "")) (main env W N s n) := by
  rcases main_config env W N with
    ⟨⟨msg, hmain⟩, -⟩ | ⟨tok, vols, cs, k, sc, -, -, -, -, hsc, hmain⟩
  · rw [hmain]
    exact good_logFatal W msg s n
  · rw [hmain]
    have hb : decide (getenv env "SLACK_TOKEN" ≠ "")
        = ({ DoContext := { token := tok }, Slack := sc } : snapshotterContext).Slack.isSome := by
      rcases hsc with ⟨h1, h2⟩ | ⟨h1, ch, -, h2⟩
      · subst h2
        simp [h1]
      · subst h2
        simp [h1]
    rw [hb]
    exact good_bind W _ _ s n (good_forVolumes W N _ k _ s n)
      (fun _ s2 n2 => good_finish W N env _ _ s2 n2)

end ConfigLemmas

section SimLemmas

variable {σ ν₁ ν₂ : Type}

theorem coreView_eq_iff {α : Type} (r1 : Run σ ν₁ α) (r2 : Run σ ν₂ α) :
    coreView r1 = coreView r2 ↔
      r1.trace.filter Event.isCore = r2.trace.filter Event.isCore ∧ r1.world = r2.world ∧
        r1.res = r2.res := by
  simp only [coreView, Prod.mk.injEq]

/-- Sequencing keeps two runs alike. -/
theorem sim_bind {α β : Type} (m1 : Prog σ ν₁ α) (m2 : Prog σ ν₂ α) (f1 : α → Prog σ ν₁ β)
    (f2 : α → Prog σ ν₂ β) (s : σ) (n1 : ν₁) (n2 : ν₂)
    (hm : coreView (m1 s n1) = coreView (m2 s n2))
    (hf : ∀ a s2 k1 k2, coreView (f1 a s2 k1) = coreView (f2 a s2 k2)) :
    coreView ((m1 >>= f1) s n1) = coreView ((m2 >>= f2) s n2) := by
  obtain ⟨ht, hw, hr⟩ := (coreView_eq_iff _ _).1 hm
  cases h1 : (m1 s n1).res with
  | error e =>
    have h2 : (m2 s n2).res = .error e := by rw [← hr, h1]
    rw [bind_of_error m1 f1 s n1 e h1, bind_of_error m2 f2 s n2 e h2]
    exact (coreView_eq_iff _ _).2 ⟨ht, hw, rfl⟩
  | ok a =>
    have h2 : (m2 s n2).res = .ok a := by rw [← hr, h1]
    rw [bind_of_ok m1 f1 s n1 a h1, bind_of_ok m2 f2 s n2 a h2]
    have h3 := hf a (m2 s n2).world (m1 s n1).slack (m2 s n2).slack
    obtain ⟨ht3, hw3, hr3⟩ := (coreView_eq_iff _ _).1 h3
    rw [hw]
    refine (coreView_eq_iff _ _).2 ⟨?_, hw3, hr3⟩
    simp only [List.filter_append, ht, ht3]

theorem sim_pure {α : Type} (a : α) (s : σ) (n1 : ν₁) (n2 : ν₂) :
    coreView ((pure a : Prog σ ν₁ α) s n1) = coreView ((pure a : Prog σ ν₂ α) s n2) := rfl

theorem sim_exitWith {α : Type} (e : Exit) (s : σ) (n1 : ν₁) (n2 : ν₂) :
    coreView ((exitWith e : Prog σ ν₁ α) s n1) = coreView ((exitWith e : Prog σ ν₂ α) s n2) :=
  rfl

theorem sim_logAt (l : Level) (msg : String) (s : σ) (n1 : ν₁) (n2 : ν₂) :
    coreView ((logAt l msg : Prog σ ν₁ Unit) s n1)
      = coreView ((logAt l msg : Prog σ ν₂ Unit) s n2) := rfl

theorem sim_logFatal {α : Type} (msg : String) (s : σ) (n1 : ν₁) (n2 : ν₂) :
    coreView ((logFatal msg : Prog σ ν₁ α) s n1)
      = coreView ((logFatal msg : Prog σ ν₂ α) s n2) := rfl

theorem sim_lookupOrFatal (env : Env) (key msg : String) (s : σ) (n1 : ν₁) (n2 : ν₂) :
    coreView ((lookupOrFatal env key msg : Prog σ ν₁ String) s n1)
      = coreView ((lookupOrFatal env key msg : Prog σ ν₂ String) s n2) := by
  unfold lookupOrFatal
  cases env key <;> rfl

theorem sim_callGetVolume (W : World σ) (c : DigitalOceanContext) (v : String) (s : σ)
    (n1 : ν₁) (n2 : ν₂) :
    coreView ((callGetVolume W c v : Prog σ ν₁ _) s n1)
      = coreView ((callGetVolume W c v : Prog σ ν₂ _) s n2) := rfl

theorem sim_callCreateSnapshot (W : World σ) (c : DigitalOceanContext) (v l : String) (s : σ)
    (n1 : ν₁) (n2 : ν₂) :
    coreView ((callCreateSnapshot W c v l : Prog σ ν₁ _) s n1)
      = coreView ((callCreateSnapshot W c v l : Prog σ ν₂ _) s n2) := rfl

theorem sim_callListSnapshots (W : World σ) (c : DigitalOceanContext) (v : String) (p : Nat)
    (s : σ) (n1 : ν₁) (n2 : ν₂) :
    coreView ((callListSnapshots W c v p : Prog σ ν₁ _) s n1)
      = coreView ((callListSnapshots W c v p : Prog σ ν₂ _) s n2) := rfl

theorem sim_callDeleteSnapshot (W : World σ) (c : DigitalOceanContext) (v : String) (s : σ)
    (n1 : ν₁) (n2 : ν₂) :
    coreView ((callDeleteSnapshot W c v : Prog σ ν₁ _) s n1)
      = coreView ((callDeleteSnapshot W c v : Prog σ ν₂ _) s n2) := rfl

theorem sim_callExecRun (W : World σ) (cmd : String) (s : σ) (n1 : ν₁) (n2 : ν₂) :
    coreView ((callExecRun W cmd : Prog σ ν₁ _) s n1)
      = coreView ((callExecRun W cmd : Prog σ ν₂ _) s n2) := rfl

/-- What the error path leaves once the notifier traffic and the
error-level log are set aside: the fatal line, if any. -/
theorem handleError_core {ν : Type} (N : Notifier ν) (ctx : snapshotterContext) (err : String)
    (fatal : Bool) (s : σ) (n : ν) :
    (handleError N ctx err fatal s n).trace.filter Event.isCore
      = (if fatal then [Event.log Level.fatal err] else []) ∧
    (handleError N ctx err fatal s n).world = s ∧
    (handleError N ctx err fatal s n).res
      = (if fatal then .error Exit.fatal else .ok ()) := by
  unfold handleError
  cases hc : ctx.Slack with
  | none =>
    cases fatal <;>
    simp [bind_apply, pure_apply, Prog.bind, Prog.pure, logAt, logFatal, Event.isCore]
  | some slack =>
    cases hs : (N.sendEvent slack err Level.error n).1 <;> cases fatal <;>
    simp [bind_apply, pure_apply, Prog.bind, Prog.pure, logAt, logFatal, callSendEvent, hs,
      Event.isCore]

theorem sim_handleError (N1 : Notifier ν₁) (N2 : Notifier ν₂) (ctx : snapshotterContext)
    (err : String) (fatal : Bool) (s : σ) (n1 : ν₁) (n2 : ν₂) :
    coreView (handleError N1 ctx err fatal s n1 : Run σ ν₁ Unit)
      = coreView (handleError N2 ctx err fatal s n2 : Run σ ν₂ Unit) := by
  obtain ⟨a1, b1, c1⟩ := handleError_core (σ := σ) N1 ctx err fatal s n1
  obtain ⟨a2, b2, c2⟩ := handleError_core (σ := σ) N2 ctx err fatal s n2
  exact (coreView_eq_iff _ _).2 ⟨by rw [a1, a2], by rw [b1, b2], by rw [c1, c2]⟩

theorem sim_orFatal {α : Type} (N1 : Notifier ν₁) (N2 : Notifier ν₂) (ctx : snapshotterContext)
    (r : Except String α) (s : σ) (n1 : ν₁) (n2 : ν₂) :
    coreView (orFatal N1 ctx r s n1 : Run σ ν₁ α)
      = coreView (orFatal N2 ctx r s n2 : Run σ ν₂ α) := by
  cases r with
  | ok a => rfl
  | error err =>
    unfold orFatal
    exact sim_bind _ _ _ _ s n1 n2 (sim_handleError N1 N2 ctx err true s n1 n2)
      (fun _ s2 k1 k2 => sim_exitWith Exit.fatal s2 k1 k2)

theorem sim_deleteLoop (W : World σ) (N1 : Notifier ν₁) (N2 : Notifier ν₂)
    (ctx : snapshotterContext) (snapshots : List Snapshot) :
    ∀ (remaining i : Nat) (s : σ) (n1 : ν₁) (n2 : ν₂),
      coreView (deleteLoop W N1 ctx snapshots remaining i s n1)
        = coreView (deleteLoop W N2 ctx snapshots remaining i s n2) := by
  intro remaining
  induction remaining with
  | zero => intro i s n1 n2; rfl
  | succ remaining ih =>
    intro i s n1 n2
    unfold deleteLoop
    cases snapshots[i]? with
    | none => rfl
    | some x =>
      refine sim_bind _ _ _ _ s n1 n2 (sim_callDeleteSnapshot W _ _ s n1 n2) ?_
      intro r s2 k1 k2
      cases r with
      | some e =>
        exact sim_bind _ _ _ _ s2 k1 k2 (sim_handleError N1 N2 ctx e false s2 k1 k2)
          (fun _ s3 j1 j2 => sim_exitWith Exit.returned s3 j1 j2)
      | none =>
        exact sim_bind _ _ _ _ s2 k1 k2 (sim_logAt _ _ s2 k1 k2)
          (fun _ s3 j1 j2 => ih (i + 1) s3 j1 j2)

theorem sim_pruneSnapshots (W : World σ) (N1 : Notifier ν₁) (N2 : Notifier ν₂)
    (ctx : snapshotterContext) (snapshotCount : Int) (snapshots : List Snapshot) (s : σ)
    (n1 : ν₁) (n2 : ν₂) :
    coreView (pruneSnapshots W N1 ctx snapshotCount snapshots s n1)
      = coreView (pruneSnapshots W N2 ctx snapshotCount snapshots s n2) := by
  unfold pruneSnapshots
  by_cases h : (snapshots.length : Int) > snapshotCount
  · simp only [h, if_true]
    refine sim_bind _ _ _ _ s n1 n2 (sim_orFatal N1 N2 ctx _ s n1 n2) ?_
    intro sorted s2 k1 k2
    exact sim_deleteLoop W N1 N2 ctx sorted _ 0 s2 k1 k2
  · simp only [h, if_false]
    rfl

theorem sim_processVolume (W : World σ) (N1 : Notifier ν₁) (N2 : Notifier ν₂)
    (ctx : snapshotterContext) (snapshotCount : Int) (volumeID : String) (s : σ)
    (n1 : ν₁) (n2 : ν₂) :
    coreView (processVolume W N1 ctx snapshotCount volumeID s n1)
      = coreView (processVolume W N2 ctx snapshotCount volumeID s n2) := by
  unfold processVolume
  refine sim_bind _ _ _ _ s n1 n2 (sim_callGetVolume W _ _ s n1 n2) ?_
  intro r s2 k1 k2
  refine sim_bind _ _ _ _ s2 k1 k2 (sim_orFatal N1 N2 ctx r s2 k1 k2) ?_
  intro volume s3 j1 j2
  refine sim_bind _ _ _ _ s3 j1 j2 (sim_callCreateSnapshot W _ _ _ s3 j1 j2) ?_
  intro r2 s4 i1 i2
  refine sim_bind _ _ _ _ s4 i1 i2 (sim_orFatal N1 N2 ctx r2 s4 i1 i2) ?_
  intro snapshot s5 h1 h2
  refine sim_bind _ _ _ _ s5 h1 h2 (sim_logAt _ _ s5 h1 h2) ?_
  intro _ s6 g1 g2
  refine sim_bind _ _ _ _ s6 g1 g2 (sim_callListSnapshots W _ _ _ s6 g1 g2) ?_
  intro r3 s7 e1 e2
  refine sim_bind _ _ _ _ s7 e1 e2 (sim_orFatal N1 N2 ctx r3 s7 e1 e2) ?_
  intro snapshots s8 d1 d2
  exact sim_pruneSnapshots W N1 N2 ctx snapshotCount snapshots s8 d1 d2

theorem sim_forVolumes (W : World σ) (N1 : Notifier ν₁) (N2 : Notifier ν₂)
    (ctx : snapshotterContext) (snapshotCount : Int) :
    ∀ (volumeIDs : List String) (s : σ) (n1 : ν₁) (n2 : ν₂),
      coreView (forVolumes W N1 ctx snapshotCount volumeIDs s n1)
        = coreView (forVolumes W N2 ctx snapshotCount volumeIDs s n2) := by
  intro volumeIDs
  induction volumeIDs with
  | nil => intro s n1 n2; rfl
  | cons v rest ih =>
    intro s n1 n2
    unfold forVolumes
    exact sim_bind _ _ _ _ s n1 n2 (sim_processVolume W N1 N2 ctx snapshotCount v s n1 n2)
      (fun _ s2 k1 k2 => ih s2 k1 k2)

/-- The success message, with its error path: nothing of it is left in the
core view, and the program goes on. -/
theorem notify_success_core {ν : Type} (N : Notifier ν) (ctx : snapshotterContext)
    (slack : SlackContext) (msg : String) (s : σ) (n : ν) :
    coreView ((callSendEvent N slack msg Level.info >>= fun err =>
      (match err with
        | some e => handleError N ctx e false
        | none => pure ()) : Prog σ ν Unit) s n) = ([], s, .ok ()) := by
  rw [bind_of_ok _ _ s n (N.sendEvent slack msg Level.info n).1 rfl]
  cases hr : (N.sendEvent slack msg Level.info n).1 with
  | none =>
    simp [coreView, callSendEvent, pure_apply, Prog.pure, Event.isCore]
  | some e =>
    obtain ⟨a, b, c⟩ := handleError_core (σ := σ) N ctx e false
      (callSendEvent N slack msg Level.info s n : Run σ ν _).world
      (callSendEvent N slack msg Level.info s n : Run σ ν _).slack
    simp only [coreView, List.filter_append, a, b, c]
    simp [callSendEvent, Event.isCore]

theorem sim_finish (W : World σ) (N1 : Notifier ν₁) (N2 : Notifier ν₂) (env : Env)
    (ctx : snapshotterContext) (volumeCount : Nat) (s : σ) (n1 : ν₁) (n2 : ν₂) :
    coreView (finish W N1 env ctx volumeCount s n1)
      = coreView (finish W N2 env ctx volumeCount s n2) := by
  unfold finish
  refine sim_bind _ _ _ _ s n1 n2 ?_ ?_
  · cases ctx.Slack with
    | none => rfl
    | some slack =>
      simp only []
      rw [notify_success_core N1 ctx slack _ s n1, notify_success_core N2 ctx slack _ s n2]
  intro _ s2 k1 k2
  cases env "SUCCESS_COMMAND" with
  | none => rfl
  | some cmd =>
    refine sim_bind _ _ _ _ s2 k1 k2 (sim_callExecRun W _ s2 k1 k2) ?_
    intro r s3 j1 j2
    cases r with
    | none => rfl
    | some e =>
      exact sim_bind _ _ _ _ s3 j1 j2 (sim_handleError N1 N2 ctx e true s3 j1 j2)
        (fun _ s4 i1 i2 => sim_exitWith Exit.fatal s4 i1 i2)

/-- Two runs of `main` that differ in the notifier only are alike. -/
theorem sim_main (env : Env) (W : World σ) (N1 : Notifier ν₁) (N2 : Notifier ν₂) (s : σ)
    (n1 : ν₁) (n2 : ν₂) :
    coreView (main env W N1 s n1) = coreView (main env W N2 s n2) := by
  unfold main
  refine sim_bind _ _ _ _ s n1 n2 (sim_lookupOrFatal env _ _ s n1 n2) ?_
  intro DOToken s1 a1 a2
  refine sim_bind _ _ _ _ s1 a1 a2 (sim_lookupOrFatal env _ _ s1 a1 a2) ?_
  intro volumesEnv s2 b1 b2
  refine sim_bind _ _ _ _ s2 b1 b2 (sim_lookupOrFatal env _ _ s2 b1 b2) ?_
  intro snapshotCountEnv s3 c1 c2
  refine sim_bind _ _ _ _ s3 c1 c2 ?_ ?_
  · cases strconvAtoi snapshotCountEnv <;> rfl
  intro snapshotCount s4 d1 d2
  refine sim_bind _ _ _ _ s4 d1 d2 ?_ ?_
  · by_cases hs : getenv env "SLACK_TOKEN" ≠ ""
    · rw [if_pos hs, if_pos hs]
      refine sim_bind _ _ _ _ s4 d1 d2 (sim_lookupOrFatal env _ _ s4 d1 d2) ?_
      intro ch s5 e1 e2
      rfl
    · rw [if_neg hs, if_neg hs]
      rfl
  intro slackContext s5 e1 e2
  refine sim_bind _ _ _ _ s5 e1 e2 (sim_forVolumes W N1 N2 _ snapshotCount _ s5 e1 e2) ?_
  intro _ s6 f1 f2
  exact sim_finish W N1 N2 env _ _ s6 f1 f2

theorem filter_of_core (p : Event → Bool) (hp : ∀ ev, p ev = true → ev.isCore = true)
    (t1 t2 : List Event) (h : t1.filter Event.isCore = t2.filter Event.isCore) :
    t1.filter p = t2.filter p := by
  have key : ∀ t : List Event, t.filter p = (t.filter Event.isCore).filter p := by
    intro t
    rw [List.filter_filter]
    apply List.filter_congr
    intro ev _
    cases hpe : p ev with
    | false => rfl
    | true => simp [hp ev hpe]
  rw [key t1, key t2, h]

end SimLemmas

/-! # The claims -/

/-- C8: for records that all parse, the sort used by the pruning step
returns a permutation of the input that is non-decreasing by parsed
timestamp and stable: for every instant, the records created at that instant
appear in the sorted sequence in their input order.  The pruning step runs
its deletion loop on that sequence, and whatever the backend answers its
delete calls are the identifiers of a leading segment of it, so the tied
records it deletes begin the tied records of the input, in the order the
backend returned them. -/
theorem sort_is_stable_permutation {σ ν : Type} (W : World σ) (N : Notifier ν)
    (ctx : snapshotterContext) (snapshotCount : Int) (snapshots : List Snapshot)
    (s : σ) (n : ν)
    (hparse : ∀ x ∈ snapshots, parses W x = true) :
    ∃ sorted : List Snapshot,
      sortSliceStable (lessCreated W) snapshots = .ok sorted ∧
      sorted.Perm snapshots ∧
      sorted.Pairwise (fun a b => createdTime W a ≤ createdTime W b) ∧
      (∀ t : Int, sorted.filter (fun z => decide (createdTime W z = t))
        = snapshots.filter (fun z => decide (createdTime W z = t))) ∧
      (∀ (m : Nat) (t : Int), (sorted.take m).filter (fun z => decide (createdTime W z = t))
        <+: snapshots.filter (fun z => decide (createdTime W z = t))) ∧
      (snapshotCount < (snapshots.length : Int) →
        pruneSnapshots W N ctx snapshotCount snapshots s n
          = deleteLoop W N ctx sorted
              (wrapInt64 ((snapshots.length : Int) - snapshotCount)).toNat 0 s n) ∧
      ∃ c : Nat,
        deleteCalls (pruneSnapshots W N ctx snapshotCount snapshots s n).trace
          = (sorted.take c).map Snapshot.ID ∧
        ∀ t : Int, (sorted.take c).filter (fun z => decide (createdTime W z = t))
          <+: snapshots.filter (fun z => decide (createdTime W z = t)) := by
  obtain ⟨sorted, hs, hperm, hsorted, hstab⟩ := sort_created_spec W snapshots hparse
  have hseg : ∀ (m : Nat) (t : Int),
      (sorted.take m).filter (fun z => decide (createdTime W z = t))
        <+: snapshots.filter (fun z => decide (createdTime W z = t)) := by
    intro m t
    rw [← hstab t]
    exact (List.take_prefix m sorted).filter _
  obtain ⟨sorted2, c, hs2, hcalls⟩ :=
    pruneSnapshots_calls W N ctx snapshotCount snapshots s n hparse
  rw [hs] at hs2
  cases hs2
  exact ⟨sorted, hs, hperm, hsorted, hstab, hseg,
    fun hlt => pruneSnapshots_sorted W N ctx snapshotCount snapshots sorted s n hlt hs,
    c, hcalls, hseg c⟩

/-- The sort on two tied records followed by five records out of order, and
the pruning step on them with retention count 0. -/
theorem sort_is_stable_permutation_witness :
    (∀ x ∈ tiedSnapshots ++ fiveSnapshots, parses juneWorld x = true) ∧
    ∃ sorted : List Snapshot,
      sortSliceStable (lessCreated juneWorld) (tiedSnapshots ++ fiveSnapshots) = .ok sorted ∧
      sorted.Perm (tiedSnapshots ++ fiveSnapshots) ∧
      sorted.Pairwise (fun a b => createdTime juneWorld a ≤ createdTime juneWorld b) ∧
      (∀ t : Int, sorted.filter (fun z => decide (createdTime juneWorld z = t))
        = (tiedSnapshots ++ fiveSnapshots).filter
            (fun z => decide (createdTime juneWorld z = t))) ∧
      (∀ (m : Nat) (t : Int),
        (sorted.take m).filter (fun z => decide (createdTime juneWorld z = t))
        <+: (tiedSnapshots ++ fiveSnapshots).filter
            (fun z => decide (createdTime juneWorld z = t))) ∧
      ((0 : Int) < ((tiedSnapshots ++ fiveSnapshots).length : Int) →
        pruneSnapshots juneWorld okNotifier plainCtx 0 (tiedSnapshots ++ fiveSnapshots)
            emptyStore ()
          = deleteLoop juneWorld okNotifier plainCtx sorted
              (wrapInt64 (((tiedSnapshots ++ fiveSnapshots).length : Int) - 0)).toNat 0
              emptyStore ()) ∧
      ∃ c : Nat,
        deleteCalls (pruneSnapshots juneWorld okNotifier plainCtx 0
            (tiedSnapshots ++ fiveSnapshots) emptyStore ()).trace
          = (sorted.take c).map Snapshot.ID ∧
        ∀ t : Int, (sorted.take c).filter (fun z => decide (createdTime juneWorld z = t))
          <+: (tiedSnapshots ++ fiveSnapshots).filter
            (fun z => decide (createdTime juneWorld z = t)) :=
  ⟨by decide,
    sort_is_stable_permutation juneWorld okNotifier plainCtx 0 (tiedSnapshots ++ fiveSnapshots)
      emptyStore () (by decide)⟩

theorem fiveSnapshots_parse : ∀ x ∈ fiveSnapshots, parses juneWorld x = true := by decide

theorem tiedSnapshots_parse : ∀ x ∈ tiedSnapshots, parses juneWorld x = true := by decide

/-- C1: for records that all parse and a retention count `k ≥ 0`, when no
delete call fails the pruning step deletes nothing if `n ≤ k`, and otherwise
deletes exactly `n - k` records, each created no later than every record it
keeps, so that `k` records are kept; the step returns to the loop over the
volumes. -/
theorem retention_deletes_oldest {σ ν : Type} (W : World σ) (N : Notifier ν)
    (ctx : snapshotterContext) (snapshotCount : Int) (snapshots : List Snapshot)
    (s : σ) (n : ν)
    (hparse : ∀ x ∈ snapshots, parses W x = true)
    (hcount : 0 ≤ snapshotCount)
    (hlen : (snapshots.length : Int) < 2 ^ 63)
    (hok : ∀ ev ∈ (pruneSnapshots W N ctx snapshotCount snapshots s n).trace,
      ev.isFailedDelete = false) :
    ∃ deleted retained : List Snapshot,
      (deleted ++ retained).Perm snapshots ∧
      deleteCalls (pruneSnapshots W N ctx snapshotCount snapshots s n).trace
        = deleted.map Snapshot.ID ∧
      (pruneSnapshots W N ctx snapshotCount snapshots s n).res = .ok () ∧
      ((snapshots.length : Int) ≤ snapshotCount → deleted = []) ∧
      (deleted.length : Int) = max 0 ((snapshots.length : Int) - snapshotCount) ∧
      (retained.length : Int) = min (snapshots.length : Int) snapshotCount ∧
      (∀ d ∈ deleted, ∀ r ∈ retained, createdTime W d ≤ createdTime W r) := by
  by_cases h : snapshotCount < (snapshots.length : Int)
  · obtain ⟨sorted, hs, hperm, hsorted, -⟩ := sort_created_spec W snapshots hparse
    have hlen2 : sorted.length = snapshots.length := hperm.length_eq
    have hwrap : wrapInt64 ((snapshots.length : Int) - snapshotCount)
        = (snapshots.length : Int) - snapshotCount := by
      apply wrapInt64_of_range <;> norm_num at hlen ⊢ <;> omega
    rw [pruneSnapshots_sorted W N ctx snapshotCount snapshots sorted s n h hs, hwrap] at hok ⊢
    rcases deleteLoop_shape W N ctx sorted ((snapshots.length : Int) - snapshotCount).toNat 0 s n
        (Nat.zero_le _) with
      ⟨h1, -, h3⟩ | ⟨-, h2, -⟩ | ⟨j, x, e, post, -, -, h3, -, -, -⟩
    · refine ⟨sorted.take ((snapshots.length : Int) - snapshotCount).toNat,
        sorted.drop ((snapshots.length : Int) - snapshotCount).toNat, ?_, ?_, h1, ?_, ?_, ?_, ?_⟩
      · rw [List.take_append_drop]; exact hperm
      · rw [h3, deleteCalls_deletedEvents, List.drop_zero]
      · intro hle; omega
      · rw [List.length_take, hlen2]; omega
      · rw [List.length_drop, hlen2]; omega
      · intro d hd r hr
        exact List.Sorted.rel_of_mem_take_of_mem_drop hsorted hd hr
    · omega
    · exfalso
      have hmem : Event.deleteSnapshot x.ID (some e)
          ∈ (deleteLoop W N ctx sorted ((snapshots.length : Int) - snapshotCount).toNat 0 s n).trace := by
        rw [h3]; simp
      have := hok _ hmem
      simp [Event.isFailedDelete] at this
  · have hle : (snapshots.length : Int) ≤ snapshotCount := not_lt.1 h
    rw [pruneSnapshots_skip W N ctx snapshotCount snapshots s n hle]
    refine ⟨[], snapshots, by simp, rfl, rfl, fun _ => rfl, ?_, ?_, ?_⟩
    · simp; omega
    · simp; omega
    · intro d hd; cases hd

/-- Five records and retention count 3: the two oldest are deleted. -/
theorem retention_deletes_oldest_witness :
    (∀ x ∈ fiveSnapshots, parses juneWorld x = true) ∧ (0 : Int) ≤ 3 ∧
    ((fiveSnapshots.length : Int) < 2 ^ 63) ∧
    (∀ ev ∈ (pruneSnapshots juneWorld okNotifier plainCtx 3 fiveSnapshots emptyStore ()).trace,
      ev.isFailedDelete = false) ∧
    ∃ deleted retained : List Snapshot,
      (deleted ++ retained).Perm fiveSnapshots ∧
      deleteCalls (pruneSnapshots juneWorld okNotifier plainCtx 3 fiveSnapshots emptyStore ()).trace
        = deleted.map Snapshot.ID ∧
      (pruneSnapshots juneWorld okNotifier plainCtx 3 fiveSnapshots emptyStore ()).res = .ok () ∧
      ((fiveSnapshots.length : Int) ≤ 3 → deleted = []) ∧
      (deleted.length : Int) = max 0 ((fiveSnapshots.length : Int) - 3) ∧
      (retained.length : Int) = min (fiveSnapshots.length : Int) 3 ∧
      (∀ d ∈ deleted, ∀ r ∈ retained, createdTime juneWorld d ≤ createdTime juneWorld r) :=
  ⟨fiveSnapshots_parse, by decide, by decide, by decide,
    retention_deletes_oldest juneWorld okNotifier plainCtx 3 fiveSnapshots emptyStore ()
      fiveSnapshots_parse (by decide) (by decide) (by decide)⟩

/-- C7, as stated, fails: with retention count 0 and two records created in
the same second, both are deleted, "a" then "b", and "a" was not created
strictly before "b". -/
theorem deletion_order_not_strict :
    (∀ x ∈ tiedSnapshots, parses juneWorld x = true) ∧
    deleteCalls (pruneSnapshots juneWorld okNotifier plainCtx 0 tiedSnapshots emptyStore ()).trace
      = ["a", "b"] ∧
    ¬ StrictlyAscendingDeletes juneWorld tiedSnapshots
      (pruneSnapshots juneWorld okNotifier plainCtx 0 tiedSnapshots emptyStore ()).trace := by
  refine ⟨tiedSnapshots_parse, rfl, ?_⟩
  rintro ⟨deleted, retained, hperm, hcalls, hchain⟩
  have hcalls2 : deleted.map Snapshot.ID = ["a", "b"] := hcalls.symm
  have htime : ∀ z ∈ tiedSnapshots, createdTime juneWorld z = 63871286400000000000 := by
    decide
  cases deleted with
  | nil => simp at hcalls2
  | cons x rest =>
    cases rest with
    | nil => simp at hcalls2
    | cons y rest2 =>
      have hx : x ∈ tiedSnapshots := hperm.subset (by simp)
      have hy : y ∈ tiedSnapshots := hperm.subset (by simp)
      have hlt : createdTime juneWorld x < createdTime juneWorld y :=
        (List.chain'_cons.1 hchain).1
      rw [htime x hx, htime y hy] at hlt
      exact lt_irrefl _ hlt

/-- C7, amended: for records that all parse and every retention count, the
delete calls issued by the pruning step, whatever the backend answers, are
in ascending order of parsed creation time: each deleted record was created
no later than the one deleted next, and strictly earlier when the parsed
timestamps of the list are pairwise distinct. -/
theorem deletion_order_ascending {σ ν : Type} (W : World σ) (N : Notifier ν)
    (ctx : snapshotterContext) (snapshotCount : Int) (snapshots : List Snapshot)
    (s : σ) (n : ν)
    (hparse : ∀ x ∈ snapshots, parses W x = true) :
    ∃ deleted retained : List Snapshot,
      (deleted ++ retained).Perm snapshots ∧
      deleteCalls (pruneSnapshots W N ctx snapshotCount snapshots s n).trace
        = deleted.map Snapshot.ID ∧
      deleted.Chain' (fun a b => createdTime W a ≤ createdTime W b) ∧
      ((snapshots.map (createdTime W)).Nodup →
        deleted.Chain' (fun a b => createdTime W a < createdTime W b)) := by
  obtain ⟨sorted, c, hs, hcalls⟩ :=
    pruneSnapshots_calls W N ctx snapshotCount snapshots s n hparse
  obtain ⟨sorted2, hs2, hperm, hsorted, -⟩ := sort_created_spec W snapshots hparse
  rw [hs] at hs2
  cases hs2
  refine ⟨sorted.take c, sorted.drop c, ?_, hcalls, ?_, ?_⟩
  · rw [List.take_append_drop]; exact hperm
  · exact (hsorted.sublist (List.take_sublist c sorted)).chain'
  · intro hnodup
    have hnd : (sorted.map (createdTime W)).Nodup := (hperm.map _).nodup_iff.2 hnodup
    have hne : sorted.Pairwise (fun a b => createdTime W a ≠ createdTime W b) :=
      List.pairwise_map.1 hnd
    have hlt : sorted.Pairwise (fun a b => createdTime W a < createdTime W b) :=
      (hsorted.and hne).imp (fun h => lt_of_le_of_ne h.1 h.2)
    exact (hlt.sublist (List.take_sublist c sorted)).chain'

/-- Five records and retention count 1. -/
theorem deletion_order_ascending_witness :
    (∀ x ∈ fiveSnapshots, parses juneWorld x = true) ∧
    ∃ deleted retained : List Snapshot,
      (deleted ++ retained).Perm fiveSnapshots ∧
      deleteCalls (pruneSnapshots juneWorld okNotifier plainCtx 1 fiveSnapshots emptyStore ()).trace
        = deleted.map Snapshot.ID ∧
      deleted.Chain' (fun a b => createdTime juneWorld a ≤ createdTime juneWorld b) ∧
      ((fiveSnapshots.map (createdTime juneWorld)).Nodup →
        deleted.Chain' (fun a b => createdTime juneWorld a < createdTime juneWorld b)) :=
  ⟨fiveSnapshots_parse,
    deletion_order_ascending juneWorld okNotifier plainCtx 1 fiveSnapshots emptyStore ()
      fiveSnapshots_parse⟩

/-- C6, as stated, fails: a list of two records, one of which does not
parse, under retention count 2 goes through the pruning step without any
error; the record is kept and no timestamp is read. -/
theorem parse_failure_not_always_fatal :
    (∃ x ∈ brokenSnapshots, parses juneWorld x = false) ∧
    (pruneSnapshots juneWorld okNotifier plainCtx 2 brokenSnapshots emptyStore ()).res = .ok () ∧
    ¬ ParseFailureIsFatal
      (pruneSnapshots juneWorld okNotifier plainCtx 2 brokenSnapshots emptyStore ()) := by
  refine ⟨⟨snap "bad" "yesterday", by decide, by decide⟩, rfl, ?_⟩
  rintro ⟨h, -⟩
  have h2 : (pruneSnapshots juneWorld okNotifier plainCtx 2 brokenSnapshots emptyStore ()).res
      = .ok () := rfl
  rw [h2] at h
  cases h

/-- C6, amended: when the listed records are two or more, exceed the
retention count, and at least one of them has a creation timestamp that does
not parse, the pruning step ends in a fatal error, emits nothing but the
error report and issues no delete call. -/
theorem parse_failure_fatal_when_sorting {σ ν : Type} (W : World σ) (N : Notifier ν)
    (ctx : snapshotterContext) (snapshotCount : Int) (snapshots : List Snapshot)
    (s : σ) (n : ν)
    (htwo : 2 ≤ snapshots.length)
    (hexcess : snapshotCount < (snapshots.length : Int))
    (hbad : ∃ x ∈ snapshots, parses W x = false) :
    (pruneSnapshots W N ctx snapshotCount snapshots s n).res = .error Exit.fatal ∧
    deleteCalls (pruneSnapshots W N ctx snapshotCount snapshots s n).trace = [] ∧
    (∀ ev ∈ (pruneSnapshots W N ctx snapshotCount snapshots s n).trace, ev.isReport = true) ∧
    (pruneSnapshots W N ctx snapshotCount snapshots s n).world = s := by
  cases hsort : sortSliceStable (lessCreated W) snapshots with
  | ok sorted =>
    exfalso
    obtain ⟨x, hx, hxbad⟩ := hbad
    match snapshots, htwo, hsort, hx with
    | a :: b :: l, _, hsort, hx =>
      have hgood : parses W x = true :=
        sortSliceStable_checks (lessCreated W) (fun z => parses W z = true)
          (fun u v w h => lessCreated_parses W u v w h) a b l sorted hsort x hx
      rw [hxbad] at hgood
      cases hgood
  | error err =>
    obtain ⟨h1, h2, h3⟩ :=
      pruneSnapshots_parse_error W N ctx snapshotCount snapshots err s n hexcess hsort
    obtain ⟨-, h4, h5, -⟩ := handleError_fatal N ctx err s n
    refine ⟨h1, ?_, ?_, ?_⟩
    · rw [h2]; exact deleteCalls_of_reports _ h5
    · rw [h2]; exact h5
    · rw [h3]; exact h4

/-- Two records, one that does not parse, and retention count 1. -/
theorem parse_failure_fatal_when_sorting_witness :
    2 ≤ brokenSnapshots.length ∧ (1 : Int) < (brokenSnapshots.length : Int) ∧
    (∃ x ∈ brokenSnapshots, parses juneWorld x = false) ∧
    (pruneSnapshots juneWorld okNotifier plainCtx 1 brokenSnapshots emptyStore ()).res
      = .error Exit.fatal ∧
    deleteCalls (pruneSnapshots juneWorld okNotifier plainCtx 1 brokenSnapshots emptyStore ()).trace
      = [] ∧
    (∀ ev ∈ (pruneSnapshots juneWorld okNotifier plainCtx 1 brokenSnapshots emptyStore ()).trace,
      ev.isReport = true) ∧
    (pruneSnapshots juneWorld okNotifier plainCtx 1 brokenSnapshots emptyStore ()).world
      = emptyStore :=
  ⟨by decide, by decide, ⟨snap "bad" "yesterday", by decide, by decide⟩,
    parse_failure_fatal_when_sorting juneWorld okNotifier plainCtx 1 brokenSnapshots emptyStore ()
      (by decide) (by decide) ⟨snap "bad" "yesterday", by decide, by decide⟩⟩

theorem split_at_failed (y : Event) (hy : y.isFailedDelete = true) :
    ∀ (A B pre post : List Event) (x : Event), Clean A → Clean B →
      A ++ x :: B = pre ++ y :: post → pre = A ∧ y = x ∧ post = B := by
  intro A
  induction A with
  | nil =>
    intro B pre post x _ hB h
    cases pre with
    | nil =>
      simp only [List.nil_append, List.cons.injEq] at h
      exact ⟨rfl, h.1.symm, h.2.symm⟩
    | cons p pre2 =>
      exfalso
      simp only [List.nil_append, List.cons_append, List.cons.injEq] at h
      have hmem : y ∈ B := by rw [h.2]; simp
      have := hB y hmem
      rw [hy] at this
      cases this
  | cons a A ih =>
    intro B pre post x hA hB h
    cases pre with
    | nil =>
      exfalso
      simp only [List.nil_append, List.cons_append, List.cons.injEq] at h
      have := hA a (List.mem_cons_self _ _)
      rw [h.1, hy] at this
      cases this
    | cons p pre2 =>
      simp only [List.cons_append, List.cons.injEq] at h
      obtain ⟨h1, h2, h3⟩ := ih B pre2 post x
        (fun ev hev => hA ev (List.mem_cons_of_mem _ hev)) hB h.2
      exact ⟨by rw [h.1, h1], h2, h3⟩

theorem clean_listed (volumeID : String) (snapshots l : List Snapshot) (before : List Event)
    (hb : Clean before) :
    Clean (before ++ Event.listSnapshots volumeID 100 (.ok snapshots) :: deletedEvents l) := by
  refine clean_append hb ?_
  intro ev hev
  rcases List.mem_cons.1 hev with rfl | hev
  · rfl
  · exact deletedEvents_not_failed l ev hev

/-- The trace of the run on `fullEnv` and `refusingStore`. -/
theorem refusing_trace :
    (main fullEnv juneWorld okNotifier refusingStore ()).trace =
      [Event.getVolume "vol1" (.ok { ID := "vol1", Name := "vol-vol1" }),
       Event.createSnapshot "vol1" "2024-06-01T12:00:00"
         (.ok { ID := "new-0", Name := "2024-06-01T12:00:00", Created := "2024-06-01T12:00:00Z" }),
       Event.log Level.info "Created Snapshot with Id new-0 from volume vol-vol1",
       Event.listSnapshots "vol1" 100
         (.ok [snap "s3" "2024-01-03T00:00:00Z", snap "s1" "2024-01-01T00:00:00Z",
           snap "s2" "2024-01-02T00:00:00Z",
           { ID := "new-0", Name := "2024-06-01T12:00:00", Created := "2024-06-01T12:00:00Z" }]),
       Event.deleteSnapshot "s1" none,
       Event.log Level.info "Deleted Snapshot with Id s1"]
      ++ Event.deleteSnapshot "s2" (some "cannot delete s2") ::
      [Event.sendEvent "cannot delete s2" Level.error none,
       Event.log Level.error "cannot delete s2"] := rfl

/-- C2: in every run of `main`, a delete call that fails is the call for
the next record of the sorted listing of the volume at hand, after the
deletions of the records before it, all with success and in that order; the
delete calls of that volume are exactly those of the first `j + 1` sorted
records; what follows the failed call is nothing but the error-level report
of the failure, so no further deletion, no later volume, no success message
and no post-success command; and `main` returns. -/
theorem deletion_failure_stops_run {σ ν : Type} (env : Env) (W : World σ) (N : Notifier ν)
    (s : σ) (n : ν) (pre post : List Event) (snapshotID e : String)
    (h : (main env W N s n).trace = pre ++ Event.deleteSnapshot snapshotID (some e) :: post) :
    ∃ (before : List Event) (volumeID : String) (snapshots sorted : List Snapshot) (j : Nat)
      (x : Snapshot),
      sortSliceStable (lessCreated W) snapshots = .ok sorted ∧
      sorted[j]? = some x ∧ x.ID = snapshotID ∧
      pre = before ++ Event.listSnapshots volumeID 100 (.ok snapshots) ::
        deletedEvents (sorted.take j) ∧
      Clean before ∧
      deleteCalls (deletedEvents (sorted.take j)
          ++ Event.deleteSnapshot snapshotID (some e) :: post)
        = (sorted.take (j + 1)).map Snapshot.ID ∧
      (∀ ev ∈ post, ev.isErrorReport = true ∧ ev.isBackend = false ∧ ev.isCommand = false) ∧
      Event.log Level.error e ∈ post ∧
      (main env W N s n).res = .error Exit.returned := by
  rcases good_main env W N s n with hclean | ⟨hstop, hres⟩
  · exfalso
    have hmem : Event.deleteSnapshot snapshotID (some e) ∈ (main env W N s n).trace := by
      rw [h]; simp
    have := hclean _ hmem
    cases this
  · obtain ⟨before, volumeID, snapshots, sorted, j, x, e2, post2, h1, h2, h3, h4, h5, h6, -⟩ :=
      hstop
    rw [h3] at h
    have h' : (before ++ Event.listSnapshots volumeID 100 (.ok snapshots) ::
        deletedEvents (sorted.take j)) ++ Event.deleteSnapshot x.ID (some e2) :: post2
        = pre ++ Event.deleteSnapshot snapshotID (some e) :: post := by
      rw [← h]; simp
    obtain ⟨hpre, hev, hpost⟩ :=
      split_at_failed (Event.deleteSnapshot snapshotID (some e)) rfl _ _ _ _ _
      (clean_listed volumeID snapshots (sorted.take j) before h4)
      (fun ev hev => isErrorReport_not_failedDelete ev (h5 ev hev)) h'
    simp only [Event.deleteSnapshot.injEq, Option.some.injEq] at hev
    obtain ⟨hid, he⟩ := hev
    subst hpost
    subst he
    refine ⟨before, volumeID, snapshots, sorted, j, x, h1, h2, hid.symm, hpre, h4, ?_, ?_, h6,
      hres⟩
    · have hpost : deleteCalls post = [] :=
        deleteCalls_of_reports post (fun ev hev => isErrorReport_isReport ev (h5 ev hev))
      rw [deleteCalls_append, deleteCalls_deletedEvents, deleteCalls_cons_delete, hpost,
        take_succ_of_getElem? sorted j x h2, List.map_append, hid]
      rfl
    · intro ev hev
      exact ⟨h5 ev hev, isErrorReport_not_backend ev (h5 ev hev)⟩

/-- The run on `fullEnv` and `refusingStore`: four records are listed and
one is to be kept, so three deletions are scheduled, "s1", "s2" and "s3";
the first is committed, the second fails and the third is never issued. -/
theorem deletion_failure_stops_run_witness :
    (main fullEnv juneWorld okNotifier refusingStore ()).trace =
      [Event.getVolume "vol1" (.ok { ID := "vol1", Name := "vol-vol1" }),
       Event.createSnapshot "vol1" "2024-06-01T12:00:00"
         (.ok { ID := "new-0", Name := "2024-06-01T12:00:00", Created := "2024-06-01T12:00:00Z" }),
       Event.log Level.info "Created Snapshot with Id new-0 from volume vol-vol1",
       Event.listSnapshots "vol1" 100
         (.ok [snap "s3" "2024-01-03T00:00:00Z", snap "s1" "2024-01-01T00:00:00Z",
           snap "s2" "2024-01-02T00:00:00Z",
           { ID := "new-0", Name := "2024-06-01T12:00:00", Created := "2024-06-01T12:00:00Z" }]),
       Event.deleteSnapshot "s1" none,
       Event.log Level.info "Deleted Snapshot with Id s1"]
      ++ Event.deleteSnapshot "s2" (some "cannot delete s2") ::
      [Event.sendEvent "cannot delete s2" Level.error none,
       Event.log Level.error "cannot delete s2"] ∧
    (main fullEnv juneWorld okNotifier refusingStore ()).res = .error Exit.returned :=
  ⟨refusing_trace,
    (deletion_failure_stops_run fullEnv juneWorld okNotifier refusingStore () _ _ "s2"
      "cannot delete s2" refusing_trace).elim
      (fun _ h => h.elim (fun _ h => h.elim (fun _ h => h.elim (fun _ h => h.elim (fun _ h =>
        h.elim (fun _ h => h.2.2.2.2.2.2.2.2))))))⟩

/-- C3, as stated, fails: on `fullEnv` and a backend that refuses one
deletion, a delete call fails and the process ends with status 0. -/
theorem deletion_failure_exit_zero :
    (∃ ev ∈ (main fullEnv juneWorld okNotifier refusingStore ()).trace,
      ev.isFailedDelete = true) ∧
    exitStatus (main fullEnv juneWorld okNotifier refusingStore ()) = 0 ∧
    ¬ DeletionFailureIsFatal (main fullEnv juneWorld okNotifier refusingStore ()) := by
  have hmem : ∃ ev ∈ (main fullEnv juneWorld okNotifier refusingStore ()).trace,
      ev.isFailedDelete = true :=
    ⟨Event.deleteSnapshot "s2" (some "cannot delete s2"), by rw [refusing_trace]; simp, rfl⟩
  exact ⟨hmem, rfl, fun hclaim => hclaim hmem rfl⟩

/-- C3, amended: in every run of `main` in which a delete call fails, the
failure goes through the non-fatal error path: what follows the failed call
is exactly the report of its error by `handleError`, which is the log line
of the error at error level, preceded, when a notifier is configured
(`SLACK_TOKEN` not empty), by the send of the error to the notifier at error
level and, if that send fails, the log line of the send failure; `main`
returns and the process ends with exit status 0. -/
theorem deletion_failure_returns {σ ν : Type} (env : Env) (W : World σ) (N : Notifier ν)
    (s : σ) (n : ν)
    (h : ∃ ev ∈ (main env W N s n).trace, ev.isFailedDelete = true) :
    (main env W N s n).res = .error Exit.returned ∧
    exitStatus (main env W N s n) = 0 ∧
    ∃ (pre post : List Event) (snapshotID e : String) (answer : Option String),
      (main env W N s n).trace = pre ++ Event.deleteSnapshot snapshotID (some e) :: post ∧
      (∀ ev ∈ post, ev.isErrorReport = true) ∧
      Event.log Level.error e ∈ post ∧
      post = errorReport (decide (getenv env "SLACK_TOKEN" ≠ "")) e answer ∧
      (getenv env "SLACK_TOKEN" ≠ "" →
        post.head? = some (Event.sendEvent e Level.error answer)) ∧
      (getenv env "SLACK_TOKEN" = "" → post = [Event.log Level.error e]) := by
  rcases good_main env W N s n with hclean | ⟨hstop, hres⟩
  · exfalso
    obtain ⟨ev, hev, hf⟩ := h
    rw [hclean ev hev] at hf
    cases hf
  · obtain ⟨before, volumeID, snapshots, sorted, j, x, e, post, -, -, h3, -, h5, h6, answer, h7⟩ :=
      hstop
    refine ⟨hres, by simp [exitStatus, hres, Exit.status], ?_⟩
    refine ⟨before ++ Event.listSnapshots volumeID 100 (.ok snapshots) ::
      deletedEvents (sorted.take j), post, x.ID, e, answer, ?_, h5, h6, h7, ?_, ?_⟩
    · rw [h3]; simp
    · intro htoken
      rw [h7]
      simp [errorReport, htoken]
    · intro htoken
      rw [h7]
      simp [errorReport, htoken]

/-- The run on `fullEnv` and `refusingStore`, with the notifier configured,
ends with status 0. -/
theorem deletion_failure_returns_witness :
    (∃ ev ∈ (main fullEnv juneWorld okNotifier refusingStore ()).trace,
      ev.isFailedDelete = true) ∧
    (main fullEnv juneWorld okNotifier refusingStore ()).res = .error Exit.returned ∧
    exitStatus (main fullEnv juneWorld okNotifier refusingStore ()) = 0 :=
  have hmem : ∃ ev ∈ (main fullEnv juneWorld okNotifier refusingStore ()).trace,
      ev.isFailedDelete = true :=
    ⟨Event.deleteSnapshot "s2" (some "cannot delete s2"), by rw [refusing_trace]; simp, rfl⟩
  ⟨hmem, (deletion_failure_returns fullEnv juneWorld okNotifier refusingStore () hmem).1,
    (deletion_failure_returns fullEnv juneWorld okNotifier refusingStore () hmem).2.1⟩

/-- C4: when `DO_TOKEN`, `DO_VOLUMES` or `DO_SNAPSHOT_COUNT` is not set, or
`DO_SNAPSHOT_COUNT` is not accepted by `strconv.Atoi`, `main` ends with a
fatal error (exit status 1) and all it has done is write the fatal log line:
no backend call, no notification, no command, the backend untouched. -/
theorem missing_config_is_fatal {σ ν : Type} (env : Env) (W : World σ) (N : Notifier ν)
    (s : σ) (n : ν)
    (h : env "DO_TOKEN" = none ∨ env "DO_VOLUMES" = none ∨ env "DO_SNAPSHOT_COUNT" = none ∨
      ∃ v, env "DO_SNAPSHOT_COUNT" = some v ∧ strconvAtoi v = none) :
    (main env W N s n).res = .error Exit.fatal ∧
    exitStatus (main env W N s n) = 1 ∧
    (∃ msg, (main env W N s n).trace = [Event.log Level.fatal msg]) ∧
    (∀ ev ∈ (main env W N s n).trace,
      ev.isBackend = false ∧ ev.isNotification = false ∧ ev.isCommand = false) ∧
    (main env W N s n).world = s := by
  rcases main_config env W N with ⟨⟨msg, hmain⟩, -⟩ | ⟨tok, vols, cs, k, sc, h1, h2, h3, h4, -, -⟩
  · rw [hmain]
    refine ⟨rfl, rfl, ⟨msg, rfl⟩, ?_, rfl⟩
    intro ev hev
    simp only [logFatal, List.mem_singleton] at hev
    subst hev
    exact ⟨rfl, rfl, rfl⟩
  · exfalso
    rcases h with h | h | h | ⟨v, hv, hbad⟩
    · rw [h1] at h; cases h
    · rw [h2] at h; cases h
    · rw [h3] at h; cases h
    · rw [h3] at hv
      cases hv
      rw [h4] at hbad
      cases hbad

/-- The run on an environment without `DO_VOLUMES`. -/
theorem missing_config_is_fatal_witness :
    (noVolumesEnv "DO_TOKEN" = none ∨ noVolumesEnv "DO_VOLUMES" = none ∨
      noVolumesEnv "DO_SNAPSHOT_COUNT" = none ∨
      ∃ v, noVolumesEnv "DO_SNAPSHOT_COUNT" = some v ∧ strconvAtoi v = none) ∧
    (main noVolumesEnv juneWorld okNotifier refusingStore ()).res = .error Exit.fatal ∧
    exitStatus (main noVolumesEnv juneWorld okNotifier refusingStore ()) = 1 ∧
    (∃ msg, (main noVolumesEnv juneWorld okNotifier refusingStore ()).trace
      = [Event.log Level.fatal msg]) ∧
    (∀ ev ∈ (main noVolumesEnv juneWorld okNotifier refusingStore ()).trace,
      ev.isBackend = false ∧ ev.isNotification = false ∧ ev.isCommand = false) ∧
    (main noVolumesEnv juneWorld okNotifier refusingStore ()).world = refusingStore :=
  ⟨Or.inr (Or.inl rfl),
    missing_config_is_fatal noVolumesEnv juneWorld okNotifier refusingStore ()
      (Or.inr (Or.inl rfl))⟩

/-- C5, as stated, fails in one direction: with `SLACK_CHANNEL_ID` set and
`SLACK_TOKEN` not set, `main` raises no configuration error and goes on to
the backend; its first call is the volume lookup. -/
theorem channel_without_token_runs :
    (channelOnlyEnv "SLACK_CHANNEL_ID" = some "C01" ∧ channelOnlyEnv "SLACK_TOKEN" = none) ∧
    (main channelOnlyEnv juneWorld okNotifier emptyStore ()).trace.head?
      = some (Event.getVolume "vol1" (.ok { ID := "vol1", Name := "vol-vol1" })) ∧
    (main channelOnlyEnv juneWorld okNotifier emptyStore ()).res = .ok () ∧
    ¬ FatalBeforeBackend (main channelOnlyEnv juneWorld okNotifier emptyStore ()) := by
  refine ⟨⟨rfl, rfl⟩, rfl, rfl, ?_⟩
  rintro ⟨h, -⟩
  have h2 : (main channelOnlyEnv juneWorld okNotifier emptyStore ()).res = .ok () := rfl
  rw [h2] at h
  cases h

/-- C5, amended: when `SLACK_TOKEN` is set to a non-empty value and
`SLACK_CHANNEL_ID` is not set, `main` ends with a fatal configuration error
before any backend call: all it has done is write a fatal log line. -/
theorem token_without_channel_is_fatal {σ ν : Type} (env : Env) (W : World σ) (N : Notifier ν)
    (s : σ) (n : ν)
    (htoken : getenv env "SLACK_TOKEN" ≠ "")
    (hchannel : env "SLACK_CHANNEL_ID" = none) :
    FatalBeforeBackend (main env W N s n) ∧
    exitStatus (main env W N s n) = 1 ∧
    (∃ msg, (main env W N s n).trace = [Event.log Level.fatal msg]) ∧
    (main env W N s n).world = s := by
  rcases main_config env W N with ⟨⟨msg, hmain⟩, -⟩ | ⟨tok, vols, cs, k, sc, -, -, -, -, h5, -⟩
  · rw [hmain]
    refine ⟨⟨rfl, ?_⟩, rfl, ⟨msg, rfl⟩, rfl⟩
    intro ev hev
    simp only [logFatal, List.mem_singleton] at hev
    subst hev
    rfl
  · exfalso
    rcases h5 with ⟨h, -⟩ | ⟨-, ch, hch, -⟩
    · exact htoken h
    · rw [hchannel] at hch
      cases hch

/-- The run on an environment with `SLACK_TOKEN` and without `SLACK_CHANNEL_ID`. -/
theorem token_without_channel_is_fatal_witness :
    getenv tokenOnlyEnv "SLACK_TOKEN" ≠ "" ∧ tokenOnlyEnv "SLACK_CHANNEL_ID" = none ∧
    FatalBeforeBackend (main tokenOnlyEnv juneWorld okNotifier emptyStore ()) ∧
    exitStatus (main tokenOnlyEnv juneWorld okNotifier emptyStore ()) = 1 ∧
    (∃ msg, (main tokenOnlyEnv juneWorld okNotifier emptyStore ()).trace
      = [Event.log Level.fatal msg]) ∧
    (main tokenOnlyEnv juneWorld okNotifier emptyStore ()).world = emptyStore :=
  ⟨by decide, rfl,
    token_without_channel_is_fatal tokenOnlyEnv juneWorld okNotifier emptyStore ()
      (by decide) rfl⟩

/-- C9: two runs of `main` on the same environment, backend and command
that differ only in the notifier (its behaviour, its state) issue the same
backend calls with the same answers, run the post-success command the same
number of times, write the same info and fatal log lines, leave the backend
in the same state and end the same way, with the same exit status; and the
error path logs the error it was given, at fatal level when `fatal` is set
and at error level otherwise, whatever the notifier answers. -/
theorem notifier_does_not_change_run {σ ν₁ ν₂ : Type} (env : Env) (W : World σ)
    (N1 : Notifier ν₁) (N2 : Notifier ν₂) (s : σ) (n1 : ν₁) (n2 : ν₂) :
    (main env W N1 s n1).trace.filter Event.isBackend
      = (main env W N2 s n2).trace.filter Event.isBackend ∧
    (main env W N1 s n1).trace.filter Event.isCommand
      = (main env W N2 s n2).trace.filter Event.isCommand ∧
    (main env W N1 s n1).trace.filter Event.isCore
      = (main env W N2 s n2).trace.filter Event.isCore ∧
    (main env W N1 s n1).world = (main env W N2 s n2).world ∧
    (main env W N1 s n1).res = (main env W N2 s n2).res ∧
    exitStatus (main env W N1 s n1) = exitStatus (main env W N2 s n2) ∧
    (∀ (ctx : snapshotterContext) (err : String) (s2 : σ) (k : ν₁),
      (handleError N1 ctx err true s2 k).res = .error Exit.fatal ∧
      Event.log Level.fatal err ∈ (handleError N1 ctx err true s2 k).trace ∧
      (handleError N1 ctx err false s2 k).res = .ok () ∧
      Event.log Level.error err ∈ (handleError N1 ctx err false s2 k).trace) := by
  obtain ⟨ht, hw, hr⟩ := (coreView_eq_iff _ _).1 (sim_main env W N1 N2 s n1 n2)
  refine ⟨?_, ?_, ht, hw, hr, ?_, ?_⟩
  · refine filter_of_core Event.isBackend ?_ _ _ ht
    intro ev hev
    cases ev <;> simp_all [Event.isBackend, Event.isCore]
  · refine filter_of_core Event.isCommand ?_ _ _ ht
    intro ev hev
    cases ev <;> simp_all [Event.isCommand, Event.isCore]
  · simp only [exitStatus, hr]
  · intro ctx err s2 k
    exact ⟨(handleError_fatal N1 ctx err s2 k).1, (handleError_fatal N1 ctx err s2 k).2.2.2,
      (handleError_nonfatal N1 ctx err s2 k).1, (handleError_nonfatal N1 ctx err s2 k).2.2.2⟩

/-- C10, on the failing input: `DO_SNAPSHOT_COUNT=-1` is accepted, the
listing of the volume holds one record, the loop deletes it at index 0 and
then reads index 1 of a slice of length 1: the run ends in a runtime panic
(exit status 2). -/
theorem negative_count_reads_past_end :
    strconvAtoi "-1" = some (-1) ∧
    deleteCalls (main negativeCountEnv juneWorld okNotifier emptyStore ()).trace = ["new-0"] ∧
    (main negativeCountEnv juneWorld okNotifier emptyStore ()).res = .error Exit.panicked ∧
    exitStatus (main negativeCountEnv juneWorld okNotifier emptyStore ()) = 2 ∧
    (pruneSnapshots juneWorld okNotifier plainCtx (-1) [snap "only" "2024-01-01T00:00:00Z"]
      emptyStore ()).res = .error Exit.panicked :=
  ⟨rfl, rfl, rfl, rfl, rfl⟩

end Snapshotter
